import Mathlib

/-!
# Plugin manager, instrumented RPC proxy and drive storage of `ingest`

A shallow embedding of

* `plugin/manager.go`  : `PluginManager` with `NewSource`, `NewDestination`, `Gather`,
  `Watch`, `Stop`, and the helpers `client`, `newSource`, `newDestination`;
* `plugin/metrics.go`  : the instrumented source / destination proxies;
* `storage/drive/drive.go` : `New`, `Stat` and the recursive helper `find`.

Conventions of the embedding.

* A Go `error` is a value of `GoError`; a `nil` error is `Option.none`.
* A Go call that may panic yields an `Outcome`.
* Go maps (`prometheus.Labels`, `map[string]any`) are lists of their entries; the order
  in which a `range` statement yields the entries of a map is an explicit parameter.
* Everything the program obtains from outside (the plugin process, the RPC delegate, the
  Drive service, the order in which goroutines of a group run) is an explicit parameter
  that the theorems quantify over.
* The registry mutex only serialises the operations; the embedding is sequential, so
  `Lock` / `Unlock` do not appear.
-/

namespace Ingest

/-! ## Common Go notions -/

/-- A Go `error` value. -/
inductive GoError where
  /-- An opaque error, e.g. `errors.New(msg)` or an error coming from a library. -/
  | new (msg : String)
  /-- The result of `fmt.Errorf(ctx + ": %w", err)`. -/
  | wrapf (ctx : String) (err : GoError)
  /-- The sentinel `fs.ErrNotExist`. -/
  | notExist
  deriving DecidableEq, Repr

/-- Result of a Go call: it returns, or it panics. -/
inductive Outcome (α : Type) where
  | returned (a : α)
  | panicked (why : String)
  deriving DecidableEq, Repr

/-- `prometheus.Labels`, a `map[string]string`, as the list of its entries. -/
abbrev Labels := List (String × String)

/-- `map[string]any`, opaque to the manager. -/
abbrev Config := List (String × String)

/-- `dto.Metric`: the label pairs of one sample and its (uninterpreted) payload. -/
structure Metric where
  Label : List (String × String)
  payload : Nat
  deriving DecidableEq, Repr

/-- `dto.MetricFamily`. -/
structure MetricFamily where
  Name : String
  Metric : List Metric
  deriving DecidableEq, Repr

/-- A `prometheus.Registerer`: the manager's registry or a registerer wrapped with labels. -/
inductive Registerer where
  /-- `pm.reg`. -/
  | registry
  /-- `prometheus.WrapRegistererWith(labels, inner)`. -/
  | wrapWith (labels : Labels) (inner : Registerer)
  deriving DecidableEq, Repr

/-- `prometheus.WrapRegistererWith`. -/
def WrapRegistererWith (labels : Labels) (reg : Registerer) : Registerer :=
  Registerer.wrapWith labels reg

/-- The dynamic value behind a dispensed `interface{}`: which capability interfaces it
implements and how it answers the calls the manager makes on it. -/
structure Capability where
  id : Nat
  /-- The value implements `Source` (the assertion `raw.(Source)` succeeds). -/
  isSource : Bool
  /-- The value implements `Destination`. -/
  isDestination : Bool
  /-- Answer of `Configure(config)`. -/
  configure : Config → Option GoError
  /-- `none`: the value is not a `prometheus.Gatherer`; otherwise the answer of `Gather()`. -/
  gatherer : Option (Except GoError (List MetricFamily))

/-- How the plugin executable behaves once spawned. -/
structure PluginProcess where
  /-- Result of `c.Client()`: `some err` when spawn / handshake fails. -/
  handshake : Option GoError
  /-- Result of `cp.Dispense(name)`. -/
  dispense : String → Except GoError Capability

/-- The outside world of the manager: the behaviour of the executable at each path. -/
abbrev Env := String → PluginProcess

/-- `*hplugin.Client`, as built by `client`. -/
structure Client where
  path : String
  /-- The `Plugins` map of the client config: dispense name ↦ registerer given to the plugin. -/
  pluginMap : List (String × Registerer)
  proc : PluginProcess

/-- `withClient[T]`. -/
structure withClient where
  t : Capability
  path : String
  c : Client
  config : Config
  labels : Labels

/-- `PluginManager` (interval, logger and mutex play no role in the embedding). -/
structure PluginManager where
  reg : Registerer
  sources : List withClient
  destinations : List withClient

/-- `NewPluginManager`. -/
def NewPluginManager : PluginManager :=
  { reg := Registerer.registry, sources := [], destinations := [] }

/-- Observable effects of a manager operation on plugin processes and capabilities. -/
inductive Effect where
  /-- `hplugin.NewClient(...)` inside `client`. -/
  | newClient (c : Client)
  /-- `c.Client()`: spawn and handshake. -/
  | start (c : Client)
  /-- `cp.Dispense(name)`. -/
  | dispense (c : Client) (name : String)
  /-- `t.Configure(config)`. -/
  | configure (t : Capability) (config : Config)
  /-- `c.Kill()`. -/
  | kill (c : Client)

/-- A finished run of a manager operation. -/
structure Run (α : Type) where
  result : Outcome α
  pm : PluginManager
  effects : List Effect

/-! ## `client`, `newDestination`, `newSource` -/

/-- `client(path, reg)`. -/
def client (env : Env) (path : String) (reg : Registerer) : Client :=
  { path := path
    pluginMap :=
      [ ("destination", WrapRegistererWith [("todo", "dest"), ("path", path)] reg),
        ("source", WrapRegistererWith [("todo", "source"), ("path", path)] reg) ]
    proc := env path }

/-- `newDestination(cp)`: the unchecked assertion `raw.(Destination)` panics on a value
that does not implement `Destination`. -/
def newDestination (c : Client) : Outcome (Except GoError Capability) :=
  match c.proc.dispense "destination" with
  | Except.error err =>
      Outcome.returned (Except.error (GoError.wrapf "failed to dispense destination" err))
  | Except.ok raw =>
      if raw.isDestination then Outcome.returned (Except.ok raw)
      else Outcome.panicked "interface conversion: not a Destination"

/-- `newSource(cp)`: the unchecked assertion `raw.(Source)` panics on a value that does
not implement `Source`. -/
def newSource (c : Client) : Outcome (Except GoError Capability) :=
  match c.proc.dispense "source" with
  | Except.error err =>
      Outcome.returned (Except.error (GoError.wrapf "failed to dispense source" err))
  | Except.ok raw =>
      if raw.isSource then Outcome.returned (Except.ok raw)
      else Outcome.panicked "interface conversion: not a Source"

/-! ## `NewDestination`, `NewSource` -/

/-- `PluginManager.NewDestination`. -/
def PluginManager.NewDestination (env : Env) (pm : PluginManager) (path : String)
    (config : Config) (labels : Labels) : Run (Except GoError Capability) :=
  let c := client env path pm.reg
  match c.proc.handshake with
  | some err =>
      { result := Outcome.returned
          (Except.error (GoError.wrapf "failed to create rpc client interface" err))
        pm := pm
        effects := [Effect.newClient c, Effect.start c, Effect.kill c] }
  | none =>
    match newDestination c with
    | Outcome.panicked why =>
        { result := Outcome.panicked why
          pm := pm
          effects := [Effect.newClient c, Effect.start c, Effect.dispense c "destination"] }
    | Outcome.returned (Except.error err) =>
        { result := Outcome.returned (Except.error err)
          pm := pm
          effects := [Effect.newClient c, Effect.start c, Effect.dispense c "destination",
                      Effect.kill c] }
    | Outcome.returned (Except.ok d) =>
      match d.configure config with
      | some err =>
          { result := Outcome.returned
              (Except.error (GoError.wrapf "failed to configure destination" err))
            pm := pm
            effects := [Effect.newClient c, Effect.start c, Effect.dispense c "destination",
                        Effect.configure d config, Effect.kill c] }
      | none =>
          { result := Outcome.returned (Except.ok d)
            pm := { pm with destinations := pm.destinations ++
                      [{ t := d, c := c, path := path, config := config, labels := labels }] }
            effects := [Effect.newClient c, Effect.start c, Effect.dispense c "destination",
                        Effect.configure d config] }

/-- `PluginManager.NewSource`. -/
def PluginManager.NewSource (env : Env) (pm : PluginManager) (path : String)
    (config : Config) (labels : Labels) : Run (Except GoError Capability) :=
  let c := client env path (WrapRegistererWith labels pm.reg)
  match c.proc.handshake with
  | some err =>
      { result := Outcome.returned
          (Except.error (GoError.wrapf "failed to create rpc client interface" err))
        pm := pm
        effects := [Effect.newClient c, Effect.start c, Effect.kill c] }
  | none =>
    match newSource c with
    | Outcome.panicked why =>
        { result := Outcome.panicked why
          pm := pm
          effects := [Effect.newClient c, Effect.start c, Effect.dispense c "source"] }
    | Outcome.returned (Except.error err) =>
        { result := Outcome.returned (Except.error err)
          pm := pm
          effects := [Effect.newClient c, Effect.start c, Effect.dispense c "source",
                      Effect.kill c] }
    | Outcome.returned (Except.ok s) =>
      match s.configure config with
      | some err =>
          { result := Outcome.returned
              (Except.error (GoError.wrapf "failed to configure source" err))
            pm := pm
            effects := [Effect.newClient c, Effect.start c, Effect.dispense c "source",
                        Effect.configure s config, Effect.kill c] }
      | none =>
          { result := Outcome.returned (Except.ok s)
            pm := { pm with sources := pm.sources ++
                      [{ t := s, c := c, path := path, config := config, labels := labels }] }
            effects := [Effect.newClient c, Effect.start c, Effect.dispense c "source",
                        Effect.configure s config] }

/-! ## Goroutine groups (`multierror.Group`) -/

/-- The error of a fan-out operation of the manager: a plain error, or the
`*multierror.Error` of a group with all its causes. -/
inductive FanOutError where
  | plain (err : GoError)
  | multi (causes : List GoError)
  deriving DecidableEq, Repr

/-- `(*multierror.Error).ErrorOrNil` on the errors a group collected. -/
def ErrorOrNil (errs : List GoError) : Option FanOutError :=
  match errs with
  | [] => none
  | e :: es => some (FanOutError.multi (e :: es))

/-- One goroutine of a group finishes: task number `k` runs on the shared state and its
error, if any, is appended to the group's errors. -/
def Group.step {σ : Type} (tasks : List (σ → σ × Option GoError))
    (acc : σ × List GoError) (k : Nat) : σ × List GoError :=
  match tasks[k]? with
  | none => acc
  | some task =>
      match task acc.1 with
      | (s, none) => (s, acc.2)
      | (s, some err) => (s, acc.2 ++ [err])

/-- `g.Go(task)` for every task, then `g.Wait()`: the goroutines finish in the order
`order` (a list of task numbers; a complete run is a permutation of all of them). Each
goroutine of the manager touches only its own slot or appends to a log, and the group
appends errors under its mutex, so running the goroutines one after the other in finishing
order loses no behaviour. -/
def Group.run {σ : Type} (tasks : List (σ → σ × Option GoError)) (order : List Nat)
    (init : σ) : σ × List GoError :=
  order.foldl (Group.step tasks) (init, [])

/-! ## `Gather` -/

/-- The entries of a label map in the order in which one statement
`for k, v := range labels` yields them. Go does not specify that order and chooses it
afresh for every `range`, so it is given from outside: `iter family sample labels` is the
order for the sample number `sample` of the family number `family`. A real run yields
every entry exactly once, that is, a permutation of `labels`. -/
abbrev RangeOrder := Nat → Nat → Labels → Labels

/-- The three nested loops of `Gather`: for every sample of every family the label map
of the handle is ranged over, and each entry yielded is appended to the label pairs of
that sample. -/
def injectLabels (iter : RangeOrder) (labels : Labels) (mfs : List MetricFamily) :
    List MetricFamily :=
  mfs.mapIdx fun fi mf =>
    { mf with Metric := mf.Metric.mapIdx fun si m =>
        { m with Label := m.Label ++ iter fi si labels } }

/-- The goroutine `Gather` starts for the handle `h` whose result slot is `slot`;
`iter slot` gives the orders of its `range` statements over the labels. -/
def gatherTask (iter : Nat → RangeOrder) (h : withClient) (slot : Nat)
    (all : List (List MetricFamily)) : List (List MetricFamily) × Option GoError :=
  match h.t.gatherer with
  | none => (all, some (GoError.new "failed to cast"))
  | some (Except.error _) => (all, none)
  | some (Except.ok mfs) => (all.set slot (injectLabels (iter slot) h.labels mfs), none)

/-- The goroutines of `Gather`, in the order of the `g.Go` calls. -/
def gatherTasks (iter : Nat → RangeOrder) (pm : PluginManager) :
    List (List (List MetricFamily) → List (List MetricFamily) × Option GoError) :=
  pm.sources.mapIdx (fun i h => gatherTask iter h i)
    ++ pm.destinations.mapIdx (fun i h => gatherTask iter h (i + pm.sources.length))

/-- `PluginManager.Gather`. `regGather` is the answer of `pm.reg.Gather()`, `order` the
order in which the goroutines finish, `iter` the orders in which the label maps are
ranged over. The families are `[]` (nil) whenever an error is returned. -/
def PluginManager.Gather (pm : PluginManager)
    (regGather : Except GoError (List MetricFamily)) (order : List Nat)
    (iter : Nat → RangeOrder) : List MetricFamily × Option FanOutError :=
  match regGather with
  | Except.error err => ([], some (FanOutError.plain err))
  | Except.ok m =>
      let all : List (List MetricFamily) :=
        List.replicate (pm.sources.length + pm.destinations.length) []
      let done := Group.run (gatherTasks iter pm) order all
      match ErrorOrNil done.2 with
      | some err => ([], some err)
      | none => (done.1.foldl (fun merged x => merged ++ x) [] ++ m, ErrorOrNil done.2)

/-- Reference, written from the specification: the label pairs `entries` are appended
to the sample. -/
def relabelSample (entries : Labels) (s : Metric) : Metric :=
  { Label := s.Label ++ entries, payload := s.payload }

/-- Reference: what a handle contributes to the merge, namely its families with the
entries of its own labels appended to every sample (in the order `iter` gives for that
sample), and nothing when its own gather fails. -/
def handleFamilies (iter : RangeOrder) (h : withClient) : List MetricFamily :=
  match h.t.gatherer with
  | some (Except.ok mfs) =>
      mfs.mapIdx fun fi mf =>
        { Name := mf.Name
          Metric := mf.Metric.mapIdx fun si s => relabelSample (iter fi si h.labels) s }
  | _ => []

/-- The reference merge, written from the specification: the families of each source in
registry order, then of each destination in registry order, then the manager's own. -/
def referenceMerge (iter : Nat → RangeOrder) (pm : PluginManager)
    (own : List MetricFamily) : List MetricFamily :=
  (pm.sources.mapIdx (fun i h => handleFamilies (iter i) h)).flatten
    ++ (pm.destinations.mapIdx
          (fun i h => handleFamilies (iter (i + pm.sources.length)) h)).flatten
    ++ own

/-- Reference: the sample `s1` is the sample `s` with one label pair appended for each
entry of `labels`, in some order, and nothing else changed. -/
def relabelled (labels : Labels) (s s1 : Metric) : Prop :=
  s1.payload = s.payload ∧ ∃ ps, ps.Perm labels ∧ s1.Label = s.Label ++ ps

/-- Reference: the family `mf1` is the family `mf` with every sample relabelled. -/
def familyRelabelled (labels : Labels) (mf mf1 : MetricFamily) : Prop :=
  mf1.Name = mf.Name ∧ List.Forall₂ (relabelled labels) mf.Metric mf1.Metric

/-! ## `Stop` -/

/-- The goroutine `f(c)` of `Stop`: kill, then return nil. -/
def stopTask (c : Client) (log : List Effect) : List Effect × Option GoError :=
  (log ++ [Effect.kill c], none)

/-- The goroutines of `Stop`, in the order of the `g.Go` calls. -/
def stopTasks (pm : PluginManager) : List (List Effect → List Effect × Option GoError) :=
  pm.sources.map (fun h => stopTask h.c) ++ pm.destinations.map (fun h => stopTask h.c)

/-- `PluginManager.Stop`; `order` is the order in which the goroutines finish. -/
def PluginManager.Stop (pm : PluginManager) (order : List Nat) : Run Unit :=
  let done := Group.run (stopTasks pm) order []
  match ErrorOrNil done.2 with
  | some _ => { result := Outcome.panicked "panic(err)", pm := pm, effects := done.1 }
  | none =>
      { result := Outcome.returned ()
        pm := { pm with destinations := [], sources := [] }
        effects := done.1 }

/-! ## `Watch` -/

/-- What happens when a handle is probed on a tick. -/
inductive ProbeOutcome where
  /-- `c.Client()` returns an error. -/
  | clientErr (err : GoError)
  /-- `cp.Ping()` returns an error. -/
  | pingErr (err : GoError)
  /-- Both succeed. -/
  | ok
  deriving DecidableEq, Repr

/-- One tick of the ticker: the probe outcome of `pm.sources[i]` and of
`pm.destinations[i]`, and the order in which the goroutines finish. -/
structure Tick where
  sources : Nat → ProbeOutcome
  destinations : Nat → ProbeOutcome
  order : List Nat

/-- The events the `select` of `Watch` receives. -/
inductive WatchEvent where
  /-- `<-ctx.Done()`. -/
  | cancel
  /-- `<-t.C`. -/
  | tick (t : Tick)

/-- The goroutine probing a source. -/
def watchSourceTask (o : ProbeOutcome) (u : Unit) : Unit × Option GoError :=
  match o with
  | ProbeOutcome.clientErr err => (u, some (GoError.wrapf "source client not initialized" err))
  | ProbeOutcome.pingErr err => (u, some (GoError.wrapf "failed to ping source" err))
  | ProbeOutcome.ok => (u, none)

/-- The goroutine probing a destination. -/
def watchDestinationTask (o : ProbeOutcome) (u : Unit) : Unit × Option GoError :=
  match o with
  | ProbeOutcome.clientErr err =>
      (u, some (GoError.wrapf "destination client not initialized" err))
  | ProbeOutcome.pingErr err => (u, some (GoError.wrapf "failed to ping destination" err))
  | ProbeOutcome.ok => (u, none)

/-- The goroutines of one tick, in the order of the `g.Go` calls. -/
def watchTasks (pm : PluginManager) (t : Tick) : List (Unit → Unit × Option GoError) :=
  (List.range pm.sources.length).map (fun i => watchSourceTask (t.sources i))
    ++ (List.range pm.destinations.length).map
        (fun i => watchDestinationTask (t.destinations i))

/-- Whether `Watch` is still in its loop or has returned. -/
inductive WatchStatus where
  | running
  | returned (err : Option FanOutError)
  deriving DecidableEq, Repr

/-- One iteration of the `for { select { ... } }` of `Watch`: `some r` when the
iteration returns `r`, `none` when the loop goes on. -/
def PluginManager.watchStep (pm : PluginManager) (ev : WatchEvent) :
    Option (Option FanOutError) :=
  match ev with
  | WatchEvent.cancel => some none
  | WatchEvent.tick t =>
      match ErrorOrNil (Group.run (watchTasks pm t) t.order ()).2 with
      | some err => some (some err)
      | none => none

/-- `PluginManager.Watch` on a sequence of events. -/
def PluginManager.Watch (pm : PluginManager) : List WatchEvent → WatchStatus
  | [] => WatchStatus.running
  | ev :: rest =>
      match pm.watchStep ev with
      | some r => WatchStatus.returned r
      | none => pm.Watch rest

/-! ## `plugin/metrics.go`: counters -/

/-- A `prometheus.CounterVec`: its variable label names and the value of the child with
the given label values (0 for a child that was never incremented). -/
structure CounterVec where
  variableLabels : List String
  value : List String → Nat

/-- `prometheus.NewCounterVec(opts, labelNames)`. -/
def NewCounterVec (labelNames : List String) : CounterVec :=
  { variableLabels := labelNames, value := fun _ => 0 }

/-- The values `labels` gives to the label names `names`, in order; `none` when a
name is missing in `labels`. -/
def labelValues (labels : Labels) : List String → Option (List String)
  | [] => some []
  | name :: names =>
      match labels.lookup name with
      | none => none
      | some v => (labelValues labels names).map (fun vs => v :: vs)

/-- `cv.With(labels)`: the label values of the selected child; `none` when the call
panics, i.e. when the number of labels differs from the number of variable labels or a
variable label is missing in `labels`. -/
def CounterVec.With (cv : CounterVec) (labels : Labels) : Option (List String) :=
  if labels.length = cv.variableLabels.length then labelValues labels cv.variableLabels
  else none

/-- `cv.WithLabelValues(lvs...)`: `none` when the call panics (wrong number of values). -/
def CounterVec.WithLabelValues (cv : CounterVec) (lvs : List String) : Option (List String) :=
  if lvs.length = cv.variableLabels.length then some lvs else none

/-- `child.Inc()` on the child with label values `lvs`. -/
def CounterVec.Inc (cv : CounterVec) (lvs : List String) : CounterVec :=
  { cv with value := fun k => if k = lvs then cv.value k + 1 else cv.value k }

/-- The statement `cv.With(labels).Inc()`. -/
def CounterVec.WithInc (cv : CounterVec) (labels : Labels) : Outcome CounterVec :=
  match cv.With labels with
  | none => Outcome.panicked "label name missing in label map"
  | some lvs => Outcome.returned (cv.Inc lvs)

/-- The statement `cv.With(labels)` whose child is not used. -/
def CounterVec.WithOnly (cv : CounterVec) (labels : Labels) : Outcome CounterVec :=
  match cv.With labels with
  | none => Outcome.panicked "label name missing in label map"
  | some _ => Outcome.returned cv

/-! ## `plugin/metrics.go`: delegates and proxies -/

/-- `context.Context`, uninterpreted. -/
abbrev Context := Nat

/-- `ingest.Codec`. -/
structure Codec where
  ID : String
  Name : String
  deriving DecidableEq, Repr

/-- `ingest.Object`, uninterpreted payload. -/
structure Object where
  bytes : List Nat
  deriving DecidableEq, Repr

/-- `storage.ObjectInfo`. -/
structure ObjectInfo where
  URI : String
  deriving DecidableEq, Repr

/-- `url.URL`, as its text. -/
abbrev URL := String

/-- An argument passed in a call. -/
inductive Arg where
  | ctx (c : Context)
  | codec (s : Codec)
  | conf (c : Config)
  | obj (o : Object)
  deriving DecidableEq, Repr

/-- The call a proxy method issues on its delegate: method and arguments. -/
structure DelegateCall where
  method : String
  args : List Arg
  deriving DecidableEq, Repr

/-- The delegate `*pluginSourceRPC`, with the signatures the proxy uses. -/
structure pluginSourceRPC where
  Gather : List MetricFamily × Option GoError
  CleanUp : Context → Codec → Option GoError
  Configure : Config → Option GoError
  Download : Context → Codec → Option Object × Option GoError
  Next : Context → Codec × Option GoError
  Reset : Context → Option GoError

/-- The delegate `*pluginDestinationRPC`, with the signatures the proxy uses (`Store` is
called with a context and a codec only). -/
structure pluginDestinationRPC where
  Gather : List MetricFamily × Option GoError
  Configure : Config → Option GoError
  Stat : Context → Codec → ObjectInfo × Option GoError
  Store : Context → Codec → URL × Option GoError

/-- `instrumentedPluginSourceRPC`. -/
structure instrumentedPluginSourceRPC where
  pluginSourceRPC : pluginSourceRPC
  cv : CounterVec

/-- `instrumentedPluginDestinationRPC`. -/
structure instrumentedPluginDestinationRPC where
  pluginDestinationRPC : pluginDestinationRPC
  cv : CounterVec

/-- `newInstrumentedPLuginSourceRPC` (registration of the counter is not modelled). -/
def newInstrumentedPLuginSourceRPC (serv : pluginSourceRPC) : instrumentedPluginSourceRPC :=
  { pluginSourceRPC := serv, cv := NewCounterVec ["rpc_method", "result"] }

/-- `newInstrumentedPLuginDestinationRPC` (registration of the counter is not modelled). -/
def newInstrumentedPLuginDestinationRPC (serv : pluginDestinationRPC) :
    instrumentedPluginDestinationRPC :=
  { pluginDestinationRPC := serv, cv := NewCounterVec ["rpc_method", "result"] }

/-- A finished call of a proxy method: the call it issued on the delegate, what it
returns (or that it panics) and the counters afterwards. -/
structure ProxyRun (ρ : Type) where
  delegated : DelegateCall
  out : Outcome ρ
  cv : CounterVec

/-- Finish a proxy method: run the counter statement, then return `r`. -/
def ProxyRun.finish {ρ : Type} (call : DelegateCall) (old : CounterVec)
    (counted : Outcome CounterVec) (r : ρ) : ProxyRun ρ :=
  match counted with
  | Outcome.panicked why => { delegated := call, out := Outcome.panicked why, cv := old }
  | Outcome.returned cv => { delegated := call, out := Outcome.returned r, cv := cv }

namespace instrumentedPluginSourceRPC

/-- Source proxy `Gather`. -/
def Gather (so : instrumentedPluginSourceRPC) :
    ProxyRun (List MetricFamily × Option GoError) :=
  let call : DelegateCall := { method := "Gather", args := [] }
  match so.pluginSourceRPC.Gather with
  | (resp, some err) =>
      ProxyRun.finish call so.cv
        (so.cv.WithInc [("rpc_method", "Gather"), ("result", "failed")]) (resp, some err)
  | (resp, none) =>
      ProxyRun.finish call so.cv
        (so.cv.WithInc [("rpc_method", "Gather"), ("result", "success")]) (resp, none)

/-- Source proxy `CleanUp`. -/
def CleanUp (so : instrumentedPluginSourceRPC) (ctx : Context) (s : Codec) :
    ProxyRun (Option GoError) :=
  let call : DelegateCall := { method := "CleanUp", args := [Arg.ctx ctx, Arg.codec s] }
  match so.pluginSourceRPC.CleanUp ctx s with
  | some err =>
      ProxyRun.finish call so.cv
        (so.cv.WithInc [("rpc_method", "CLeanUp"), ("result", "failed")]) (some err)
  | none =>
      ProxyRun.finish call so.cv
        (so.cv.WithInc [("rpc_method", "CleanUp"), ("result", "success")]) none

/-- Source proxy `Configure`. -/
def Configure (so : instrumentedPluginSourceRPC) (conf : Config) :
    ProxyRun (Option GoError) :=
  let call : DelegateCall := { method := "Configure", args := [Arg.conf conf] }
  match so.pluginSourceRPC.Configure conf with
  | some err =>
      ProxyRun.finish call so.cv
        (so.cv.WithInc [("rpc_method", "Configure"), ("result", "failed")]) (some err)
  | none =>
      ProxyRun.finish call so.cv
        (so.cv.WithInc [("rpc_method", "Configure"), ("result", "success")]) none

/-- Source proxy `Download`. -/
def Download (so : instrumentedPluginSourceRPC) (ctx : Context) (s : Codec) :
    ProxyRun (Option Object × Option GoError) :=
  let call : DelegateCall := { method := "Download", args := [Arg.ctx ctx, Arg.codec s] }
  match so.pluginSourceRPC.Download ctx s with
  | (_, some err) =>
      ProxyRun.finish call so.cv
        (so.cv.WithInc [("rpc_method", "Download"), ("result", "failed")]) (none, some err)
  | (obj, none) =>
      ProxyRun.finish call so.cv
        (so.cv.WithInc [("rpc_method", "Download"), ("result", "success")]) (obj, none)

/-- Source proxy `Next`. -/
def Next (so : instrumentedPluginSourceRPC) (ctx : Context) :
    ProxyRun (Option Codec × Option GoError) :=
  let call : DelegateCall := { method := "Next", args := [Arg.ctx ctx] }
  match so.pluginSourceRPC.Next ctx with
  | (_, some err) =>
      ProxyRun.finish call so.cv
        (so.cv.WithInc [("rpc_method", "Next"), ("result", "failed")]) (none, some err)
  | (resp, none) =>
      ProxyRun.finish call so.cv
        (so.cv.WithInc [("rpc_method", "Next"), ("result", "success")]) (some resp, none)

/-- Source proxy `Reset`: the success branch selects the child but does not increment. -/
def Reset (so : instrumentedPluginSourceRPC) (ctx : Context) : ProxyRun (Option GoError) :=
  let call : DelegateCall := { method := "Reset", args := [Arg.ctx ctx] }
  match so.pluginSourceRPC.Reset ctx with
  | some err =>
      ProxyRun.finish call so.cv
        (so.cv.WithInc [("rpc_method", "Reset"), ("result", "failed")]) (some err)
  | none =>
      ProxyRun.finish call so.cv
        (so.cv.WithOnly [("rpc_method", "Reset"), ("result", "success")]) none

end instrumentedPluginSourceRPC

namespace instrumentedPluginDestinationRPC

/-- Destination proxy `Gather`. -/
def Gather (d : instrumentedPluginDestinationRPC) :
    ProxyRun (List MetricFamily × Option GoError) :=
  let call : DelegateCall := { method := "Gather", args := [] }
  match d.pluginDestinationRPC.Gather with
  | (resp, some err) =>
      ProxyRun.finish call d.cv
        (d.cv.WithInc [("rpc_method", "Gather"), ("result", "failed")]) (resp, some err)
  | (resp, none) =>
      ProxyRun.finish call d.cv
        (d.cv.WithInc [("rpc_method", "Gather"), ("result", "success")]) (resp, none)

/-- Destination proxy `Configure`: the success branch passes the label `rpc-method`. -/
def Configure (d : instrumentedPluginDestinationRPC) (conf : Config) :
    ProxyRun (Option GoError) :=
  let call : DelegateCall := { method := "Configure", args := [Arg.conf conf] }
  match d.pluginDestinationRPC.Configure conf with
  | some err =>
      ProxyRun.finish call d.cv
        (d.cv.WithInc [("rpc_method", "Configure"), ("result", "failed")]) (some err)
  | none =>
      ProxyRun.finish call d.cv
        (d.cv.WithInc [("rpc-method", "Configure"), ("result", "success")]) none

/-- Destination proxy `Stat`. -/
def Stat (d : instrumentedPluginDestinationRPC) (ctx : Context) (s : Codec) :
    ProxyRun (Option ObjectInfo × Option GoError) :=
  let call : DelegateCall := { method := "Stat", args := [Arg.ctx ctx, Arg.codec s] }
  match d.pluginDestinationRPC.Stat ctx s with
  | (_, some err) =>
      ProxyRun.finish call d.cv
        (d.cv.WithInc [("rpc_method", "Stat"), ("result", "failed")]) (none, some err)
  | (resp, none) =>
      ProxyRun.finish call d.cv
        (d.cv.WithInc [("rpc_method", "Stat"), ("result", "success")]) (some resp, none)

/-- Destination proxy `Store`: the object is not passed on, and the failure branch counts
a success. -/
def Store (d : instrumentedPluginDestinationRPC) (ctx : Context) (s : Codec) (_obj : Object) :
    ProxyRun (Option URL × Option GoError) :=
  let call : DelegateCall := { method := "Store", args := [Arg.ctx ctx, Arg.codec s] }
  match d.pluginDestinationRPC.Store ctx s with
  | (_, some err) =>
      ProxyRun.finish call d.cv
        (d.cv.WithInc [("rpc_method", "Store"), ("result", "success")]) (none, some err)
  | (resp, none) =>
      ProxyRun.finish call d.cv
        (d.cv.WithInc [("rpc_method", "Store"), ("result", "success")]) (some resp, none)

end instrumentedPluginDestinationRPC

/-! ## `storage/drive/drive.go` -/

/-- `strings.Split(s, "/")` of the Go standard library on the characters of `s`: the
substrings between the separators, in order. -/
def splitSlash : List Char → List (List Char)
  | [] => [[]]
  | c :: cs =>
      if c = '/' then [] :: splitSlash cs
      else
        match splitSlash cs with
        | [] => [[c]]
        | p :: ps => (c :: p) :: ps

/-- `strings.Split(folder, "/")`. -/
def stringsSplit (folder : String) : List String :=
  (splitSlash folder.toList).map String.mk

/-- `drive.File`, the fields `find` uses. -/
structure File where
  Id : String
  Parents : List String
  deriving DecidableEq, Repr

/-- `*drive.Service` as far as `find` uses it: the answer to the list call with query
`q`, which may depend on and change the remote state `σ`. -/
structure DriveService (σ : Type) where
  list : σ → String → Except GoError (List File) × σ

/-- `os.IsNotExist`. -/
def IsNotExist : GoError → Bool
  | GoError.notExist => true
  | _ => false

/-- What `find` reads and changes: the remote state, the counter vector behind the
pointer `ds.gdcot` (`none` for a nil pointer), and, as ghost state, the `(depth, parts)`
of every call of `find` made so far. -/
structure FindState (σ : Type) where
  remote : σ
  gdcot : Option CounterVec
  calls : List (Nat × List String)

/-- The statement `ds.gdcot.WithLabelValues(o, r).Inc()`. -/
def FindState.count {σ : Type} (st : FindState σ) (o r : String) : Outcome (FindState σ) :=
  match st.gdcot with
  | none => Outcome.panicked "nil pointer dereference"
  | some cv =>
      match cv.WithLabelValues [o, r] with
      | none => Outcome.panicked "inconsistent label cardinality"
      | some lvs => Outcome.returned { st with gdcot := some (cv.Inc lvs) }

/-- The query string `find` builds. -/
def findQuery (parent name : String) : String :=
  let query := "name = '" ++ name ++ "' and trashed=false"
  if parent ≠ "" then query ++ " and '" ++ parent ++ "' in parents" else query

/-- The loop `for i := range fileList.Files` of `find`; `single` is `len(parts) == 1` and
`recurse id` is the call `ds.find(ctx, id, parts[1:])`. -/
def findLoop {σ : Type}
    (recurse : String → FindState σ → Outcome (Except GoError File) × FindState σ)
    (parent : String) (single : Bool) :
    List File → FindState σ → Outcome (Except GoError File) × FindState σ
  | [], st => (Outcome.returned (Except.error GoError.notExist), st)
  | f :: files, st =>
      if (parent == "") != (f.Parents.length == 0) then
        findLoop recurse parent single files st
      else if single then (Outcome.returned (Except.ok f), st)
      else
        match recurse f.Id st with
        | (Outcome.panicked why, st1) => (Outcome.panicked why, st1)
        | (Outcome.returned (Except.error err), st1) =>
            if IsNotExist err then
              match st1.count "find" "success" with
              | Outcome.panicked why => (Outcome.panicked why, st1)
              | Outcome.returned st2 => findLoop recurse parent single files st2
            else
              match st1.count "find" "error" with
              | Outcome.panicked why => (Outcome.panicked why, st1)
              | Outcome.returned st2 => (Outcome.returned (Except.error err), st2)
        | (Outcome.returned (Except.ok g), st1) =>
            match st1.count "find" "success" with
            | Outcome.panicked why => (Outcome.panicked why, st1)
            | Outcome.returned st2 => (Outcome.returned (Except.ok g), st2)

/-- The text of the panic of `parts[0]` on an empty slice. -/
def indexOutOfRange : String := "index out of range [0] with length 0"

/-- `driveStorage.find`, at recursion depth `depth` (ghost). -/
def find {σ : Type} (svc : DriveService σ) :
    List String → Nat → String → FindState σ →
      Outcome (Except GoError File) × FindState σ
  | [], depth, _, st =>
      (Outcome.panicked indexOutOfRange, { st with calls := st.calls ++ [(depth, [])] })
  | name :: rest, depth, parent, st =>
      let st0 := { st with calls := st.calls ++ [(depth, name :: rest)] }
      match svc.list st0.remote (findQuery parent name) with
      | (Except.error err, remote) =>
          let st1 := { st0 with remote := remote }
          match st1.count "list" "error" with
          | Outcome.panicked why => (Outcome.panicked why, st1)
          | Outcome.returned st2 => (Outcome.returned (Except.error err), st2)
      | (Except.ok files, remote) =>
          let st1 := { st0 with remote := remote }
          match st1.count "list" "success" with
          | Outcome.panicked why => (Outcome.panicked why, st1)
          | Outcome.returned st2 =>
              findLoop (fun id s => find svc rest (depth + 1) id s) parent
                ((name :: rest).length == 1) files st2

/-- `driveStorage`. -/
structure driveStorage (σ : Type) where
  s : DriveService σ
  p : String
  gdcot : Option CounterVec

/-- The text of the error of the guard `len(parts) < 1` in `New`. -/
def noFolder : GoError := GoError.new "no folder was specified"

/-- `New(folder, service, l, r)`: `find` runs before `ds.gdcot` is assigned. The final
loops `Add(0)` create the six children of the counter without changing a value. -/
def New {σ : Type} (folder : String) (service : DriveService σ) (remote : σ) :
    Outcome (Except GoError (driveStorage σ)) × FindState σ :=
  let parts := stringsSplit folder
  if parts.length < 1 then
    (Outcome.returned (Except.error noFolder),
      { remote := remote, gdcot := none, calls := [] })
  else
    match find service parts 0 "" { remote := remote, gdcot := none, calls := [] } with
    | (Outcome.panicked why, st) => (Outcome.panicked why, st)
    | (Outcome.returned (Except.error err), st) =>
        (Outcome.returned (Except.error (GoError.wrapf "failed to find folder" err)), st)
    | (Outcome.returned (Except.ok f), st) =>
        (Outcome.returned (Except.ok
            { s := service, p := f.Id, gdcot := some (NewCounterVec ["operation", "result"]) }),
          st)

/-- `driveStorage.Stat`. -/
def driveStorage.Stat {σ : Type} (ds : driveStorage σ) (remote : σ) (element : Codec) :
    Outcome (Except GoError ObjectInfo) × FindState σ :=
  match find ds.s [element.Name] 0 ds.p { remote := remote, gdcot := ds.gdcot, calls := [] } with
  | (Outcome.panicked why, st) => (Outcome.panicked why, st)
  | (Outcome.returned (Except.error err), st) => (Outcome.returned (Except.error err), st)
  | (Outcome.returned (Except.ok f), st) =>
      (Outcome.returned (Except.ok { URI := f.Id }), st)

/-! ## Observations used in the statements -/

/-- The client of a `Kill` call, for a kill effect. -/
def Effect.killed : Effect → Option Client
  | Effect.kill c => some c
  | _ => none

/-- A capability implementing both roles whose `Configure` and `Gather` succeed. -/
def sampleCapability : Capability :=
  { id := 1, isSource := true, isDestination := true, configure := fun _ => none,
    gatherer := some (Except.ok
      [{ Name := "up", Metric := [{ Label := [("job", "a")], payload := 1 },
                                  { Label := [("job", "b")], payload := 2 }] }]) }

/-- A capability that implements neither `Source` nor `Destination`. -/
def foreignCapability : Capability :=
  { id := 2, isSource := false, isDestination := false, configure := fun _ => none,
    gatherer := none }

/-- Every executable handshakes and dispenses `sampleCapability`. -/
def sampleEnv : Env := fun _ =>
  { handshake := none, dispense := fun _ => Except.ok sampleCapability }

/-- Every executable handshakes and dispenses a value of a foreign type. -/
def foreignEnv : Env := fun _ =>
  { handshake := none, dispense := fun _ => Except.ok foreignCapability }

/-! ## Auxiliary definitions for the proofs about `Gather`, `Stop` and `Watch` -/

/-- The handles of the registry in the order of their result slots. -/
def PluginManager.handles (pm : PluginManager) : List withClient :=
  pm.sources ++ pm.destinations

/-- What the goroutine of a handle stores in its slot, if it stores anything. -/
def slotWrite (iter : Nat → RangeOrder) (slot : Nat) (h : withClient) :
    Option (List MetricFamily) :=
  match h.t.gatherer with
  | some (Except.ok mfs) => some (injectLabels (iter slot) h.labels mfs)
  | _ => none

/-- The error the goroutine of a handle returns, if any. -/
def castError (h : withClient) : Option GoError :=
  match h.t.gatherer with
  | none => some (GoError.new "failed to cast")
  | _ => none

/-- The content of the slot of a handle once its goroutine has finished. -/
def slotValue (iter : Nat → RangeOrder) (slot : Nat) (h : withClient) :
    List MetricFamily :=
  (slotWrite iter slot h).getD []

/-- A capability whose own `Gather` fails. -/
def failingCapability : Capability :=
  { id := 3, isSource := true, isDestination := true, configure := fun _ => none,
    gatherer := some (Except.error (GoError.new "rpc unavailable")) }

/-- A manager with one healthy source and one destination whose gather fails. -/
def sampleManager : PluginManager :=
  { reg := Registerer.registry
    sources := [{ t := sampleCapability, path := "/bin/noop",
                  c := client sampleEnv "/bin/noop" Registerer.registry,
                  config := [], labels := [("env", "test"), ("team", "ingest")] }]
    destinations := [{ t := failingCapability, path := "/bin/drive",
                       c := client sampleEnv "/bin/drive" Registerer.registry,
                       config := [], labels := [("env", "prod")] }] }

/-- A run in which the label map is ranged over in list order for the samples with an
even number and in the reverse order for the others. -/
def sampleIter : Nat → RangeOrder :=
  fun _ _ si labels => if si % 2 = 0 then labels else labels.reverse

/-- The manager's own families in the sample runs. -/
def sampleOwn : List MetricFamily :=
  [{ Name := "go_goroutines", Metric := [{ Label := [], payload := 7 }] }]

/-- A tick on which every registered handle answers the probe. -/
def Tick.healthy (pm : PluginManager) (t : Tick) : Prop :=
  (∀ i, i < pm.sources.length → t.sources i = ProbeOutcome.ok)
    ∧ (∀ i, i < pm.destinations.length → t.destinations i = ProbeOutcome.ok)

/-- A tick on which every handle is healthy; the goroutines finish in `g.Go` order. -/
def healthyTick : Tick :=
  { sources := fun _ => ProbeOutcome.ok, destinations := fun _ => ProbeOutcome.ok,
    order := [0, 1] }

/-- A tick on which the ping of the only destination fails; its goroutine finishes
first. -/
def failingTick : Tick :=
  { sources := fun _ => ProbeOutcome.ok
    destinations := fun _ => ProbeOutcome.pingErr (GoError.new "connection is shut down")
    order := [1, 0] }

/-! ## Sample inputs for the proxies and the drive storage -/

/-- A source delegate whose `Download` fails while still returning an object, whose
`CleanUp` fails, and whose other calls succeed. -/
def sampleSource : pluginSourceRPC :=
  { Gather := ([], none)
    CleanUp := fun _ _ => some (GoError.new "cleanup refused")
    Configure := fun _ => none
    Download := fun _ _ => (some { bytes := [1, 2, 3] }, some (GoError.new "short read"))
    Next := fun _ => ({ ID := "1", Name := "a.txt" }, none)
    Reset := fun _ => none }

/-- A destination delegate whose `Store` fails and whose other calls succeed. -/
def sampleDestination : pluginDestinationRPC :=
  { Gather := ([], none)
    Configure := fun _ => none
    Stat := fun _ _ => ({ URI := "drive://a.txt" }, none)
    Store := fun _ _ => ("", some (GoError.new "quota exceeded")) }

/-- The codec used in the sample calls. -/
def sampleCodec : Codec := { ID := "1", Name := "a.txt" }

/-- A call `(depth, parts)` of `find` that is in order below the outermost call made
at depth `depth0` with `parts0`: its parts are non-empty and are `parts0` without its
first `depth - depth0` elements. -/
def goodCall (depth0 : Nat) (parts0 : List String) (c : Nat × List String) : Prop :=
  c.2 ≠ [] ∧ ∃ k, c.1 = depth0 + k ∧ c.2 = parts0.drop k

/-- The run of `find` from `st` to `st1` with outcome `out` made only calls satisfying
`good` and did not panic on `parts[0]`. -/
def safeRun {σ α : Type} (good : Nat × List String → Prop) (st : FindState σ)
    (r : Outcome α × FindState σ) : Prop :=
  (∃ new, r.2.calls = st.calls ++ new ∧ ∀ c ∈ new, good c)
    ∧ r.1 ≠ Outcome.panicked indexOutOfRange

/-- A Drive service that holds the folder chain `a/b` and nothing else. -/
def sampleDrive : DriveService Unit :=
  { list := fun u q =>
      if q = "name = 'a' and trashed=false" then
        (Except.ok [{ Id := "id-a", Parents := [] }], u)
      else if q = "name = 'b' and trashed=false and 'id-a' in parents" then
        (Except.ok [{ Id := "id-b", Parents := ["id-a"] }], u)
      else (Except.ok [], u) }

/-! ## Theorems: `NewSource`, `NewDestination` -/

/-- C1 (the code on every input, the failing one included). For every manager state,
path, config and labels the run of `NewSource`, and likewise of `NewDestination`, is one
of five: a failing handshake, a `Dispense` error and a `Configure` error each return the
wrapped error, leave the manager unchanged and end with `Kill` on the client just created;
success returns the dispensed capability after exactly one `Configure` on it, without
`Kill`, and appends one handle with that capability, the client, path, config and labels
to the matching sequence only; but when the dispensed value is not of the requested type
the call panics, so it neither succeeds nor returns an error, and `Kill` is not issued. -/
theorem NewSource_NewDestination_outcomes (env : Env) (pm : PluginManager)
    (path : String) (config : Config) (labels : Labels) :
    (∀ e, (env path).handshake = some e →
        pm.NewSource env path config labels
          = { result := Outcome.returned
                (Except.error (GoError.wrapf "failed to create rpc client interface" e))
              pm := pm
              effects := [Effect.newClient (client env path (WrapRegistererWith labels pm.reg)), Effect.start (client env path (WrapRegistererWith labels pm.reg)),
                Effect.kill (client env path (WrapRegistererWith labels pm.reg))] })
    ∧ (∀ e, (env path).handshake = none →
        (env path).dispense "source" = Except.error e →
        pm.NewSource env path config labels
          = { result := Outcome.returned
                (Except.error (GoError.wrapf "failed to dispense source" e))
              pm := pm
              effects := [Effect.newClient (client env path (WrapRegistererWith labels pm.reg)), Effect.start (client env path (WrapRegistererWith labels pm.reg)),
                Effect.dispense (client env path (WrapRegistererWith labels pm.reg)) "source",
                Effect.kill (client env path (WrapRegistererWith labels pm.reg))] })
    ∧ (∀ raw e, (env path).handshake = none →
        (env path).dispense "source" = Except.ok raw → raw.isSource = true →
        raw.configure config = some e →
        pm.NewSource env path config labels
          = { result := Outcome.returned
                (Except.error (GoError.wrapf "failed to configure source" e))
              pm := pm
              effects := [Effect.newClient (client env path (WrapRegistererWith labels pm.reg)), Effect.start (client env path (WrapRegistererWith labels pm.reg)),
                Effect.dispense (client env path (WrapRegistererWith labels pm.reg)) "source",
                Effect.configure raw config,
                Effect.kill (client env path (WrapRegistererWith labels pm.reg))] })
    ∧ (∀ raw, (env path).handshake = none →
        (env path).dispense "source" = Except.ok raw → raw.isSource = true →
        raw.configure config = none →
        pm.NewSource env path config labels
          = { result := Outcome.returned (Except.ok raw)
              pm := { pm with sources := pm.sources ++
                [{ t := raw, c := (client env path (WrapRegistererWith labels pm.reg)), path := path, config := config, labels := labels }] }
              effects := [Effect.newClient (client env path (WrapRegistererWith labels pm.reg)), Effect.start (client env path (WrapRegistererWith labels pm.reg)),
                Effect.dispense (client env path (WrapRegistererWith labels pm.reg)) "source",
                Effect.configure raw config] })
    ∧ (∀ raw, (env path).handshake = none →
        (env path).dispense "source" = Except.ok raw → raw.isSource = false →
        pm.NewSource env path config labels
          = { result := Outcome.panicked "interface conversion: not a Source"
              pm := pm
              effects := [Effect.newClient (client env path (WrapRegistererWith labels pm.reg)), Effect.start (client env path (WrapRegistererWith labels pm.reg)),
                Effect.dispense (client env path (WrapRegistererWith labels pm.reg)) "source"] })
    ∧
    (∀ e, (env path).handshake = some e →
        pm.NewDestination env path config labels
          = { result := Outcome.returned
                (Except.error (GoError.wrapf "failed to create rpc client interface" e))
              pm := pm
              effects := [Effect.newClient (client env path pm.reg), Effect.start (client env path pm.reg),
                Effect.kill (client env path pm.reg)] })
    ∧ (∀ e, (env path).handshake = none →
        (env path).dispense "destination" = Except.error e →
        pm.NewDestination env path config labels
          = { result := Outcome.returned
                (Except.error (GoError.wrapf "failed to dispense destination" e))
              pm := pm
              effects := [Effect.newClient (client env path pm.reg), Effect.start (client env path pm.reg),
                Effect.dispense (client env path pm.reg) "destination",
                Effect.kill (client env path pm.reg)] })
    ∧ (∀ raw e, (env path).handshake = none →
        (env path).dispense "destination" = Except.ok raw → raw.isDestination = true →
        raw.configure config = some e →
        pm.NewDestination env path config labels
          = { result := Outcome.returned
                (Except.error (GoError.wrapf "failed to configure destination" e))
              pm := pm
              effects := [Effect.newClient (client env path pm.reg), Effect.start (client env path pm.reg),
                Effect.dispense (client env path pm.reg) "destination",
                Effect.configure raw config,
                Effect.kill (client env path pm.reg)] })
    ∧ (∀ raw, (env path).handshake = none →
        (env path).dispense "destination" = Except.ok raw → raw.isDestination = true →
        raw.configure config = none →
        pm.NewDestination env path config labels
          = { result := Outcome.returned (Except.ok raw)
              pm := { pm with destinations := pm.destinations ++
                [{ t := raw, c := (client env path pm.reg), path := path, config := config, labels := labels }] }
              effects := [Effect.newClient (client env path pm.reg), Effect.start (client env path pm.reg),
                Effect.dispense (client env path pm.reg) "destination",
                Effect.configure raw config] })
    ∧ (∀ raw, (env path).handshake = none →
        (env path).dispense "destination" = Except.ok raw → raw.isDestination = false →
        pm.NewDestination env path config labels
          = { result := Outcome.panicked "interface conversion: not a Destination"
              pm := pm
              effects := [Effect.newClient (client env path pm.reg), Effect.start (client env path pm.reg),
                Effect.dispense (client env path pm.reg) "destination"] }) := by
  refine ⟨?_, ?_, ?_, ?_, ?_, ?_, ?_, ?_, ?_, ?_⟩
  · intro e hh
    simp only [PluginManager.NewSource, client, hh]
  · intro e hh hdis
    simp only [PluginManager.NewSource, newSource, client, hh, hdis]
  · intro raw e hh hdis hraw hc
    simp only [PluginManager.NewSource, newSource, client, hh, hdis, hraw, if_true, hc]
  · intro raw hh hdis hraw hc
    simp only [PluginManager.NewSource, newSource, client, hh, hdis, hraw, if_true, hc]
  · intro raw hh hdis hraw
    simp only [PluginManager.NewSource, newSource, client, hh, hdis, hraw]
    rfl
  · intro e hh
    simp only [PluginManager.NewDestination, client, hh]
  · intro e hh hdis
    simp only [PluginManager.NewDestination, newDestination, client, hh, hdis]
  · intro raw e hh hdis hraw hc
    simp only [PluginManager.NewDestination, newDestination, client, hh, hdis, hraw, if_true, hc]
  · intro raw hh hdis hraw hc
    simp only [PluginManager.NewDestination, newDestination, client, hh, hdis, hraw, if_true, hc]
  · intro raw hh hdis hraw
    simp only [PluginManager.NewDestination, newDestination, client, hh, hdis, hraw]
    rfl

/-- Witness of `NewSource_NewDestination_outcomes`. On `foreignEnv`, whose dispensed value
is of a foreign type, `NewDestination` panics: it returns neither a capability nor an
error and issues no `Kill`. On `sampleEnv`, `NewSource` returns the dispensed capability
and registers it. -/
theorem NewSource_NewDestination_outcomes_witness :
    ((NewPluginManager.NewDestination foreignEnv "/bin/other" [] [("env", "test")]).result
        = Outcome.panicked "interface conversion: not a Destination"
      ∧ (NewPluginManager.NewDestination foreignEnv "/bin/other" [] [("env", "test")]).effects.filterMap
          Effect.killed = []
      ∧ (NewPluginManager.NewDestination foreignEnv "/bin/other" [] [("env", "test")]).pm.destinations
          = [])
    ∧ ((sampleEnv "/bin/noop").dispense "source" = Except.ok sampleCapability
      ∧ (NewPluginManager.NewSource sampleEnv "/bin/noop" [] [("env", "test")]).result
          = Outcome.returned (Except.ok sampleCapability)
      ∧ (NewPluginManager.NewSource sampleEnv "/bin/noop" [] [("env", "test")]).pm.sources.map
          (fun h => h.t.id) = [sampleCapability.id]) :=
  ⟨by
      rw [(NewSource_NewDestination_outcomes foreignEnv NewPluginManager "/bin/other" []
        [("env", "test")]).2.2.2.2.2.2.2.2.2 foreignCapability rfl rfl rfl]
      exact ⟨rfl, rfl, rfl⟩,
    by
      rw [(NewSource_NewDestination_outcomes sampleEnv NewPluginManager "/bin/noop" []
        [("env", "test")]).2.2.2.1 sampleCapability rfl rfl rfl rfl]
      exact ⟨rfl, rfl, rfl⟩⟩

/-- C8 (the code at the failing input). When the handshake succeeds and the dispensed
value is not of the requested capability type, `NewSource` / `NewDestination` do not
return an error: the unchecked type assertion panics, and no `Kill` is issued on the
client just created. The registry is not modified. -/
theorem New_type_mismatch_panics_without_kill (env : Env) (pm : PluginManager)
    (path : String) (config : Config) (labels : Labels) (raw : Capability)
    (hh : (env path).handshake = none) :
    (((env path).dispense "source" = Except.ok raw → raw.isSource = false →
        (∃ why, (pm.NewSource env path config labels).result = Outcome.panicked why)
        ∧ (pm.NewSource env path config labels).effects.filterMap Effect.killed = []
        ∧ (pm.NewSource env path config labels).pm = pm)
    ∧ ((env path).dispense "destination" = Except.ok raw → raw.isDestination = false →
        (∃ why, (pm.NewDestination env path config labels).result = Outcome.panicked why)
        ∧ (pm.NewDestination env path config labels).effects.filterMap Effect.killed = []
        ∧ (pm.NewDestination env path config labels).pm = pm)) := by
  constructor
  · intro hdis hraw
    unfold PluginManager.NewSource newSource
    simp only [client, hh, hdis, hraw]
    exact ⟨⟨_, rfl⟩, rfl, rfl⟩
  · intro hdis hraw
    unfold PluginManager.NewDestination newDestination
    simp only [client, hh, hdis, hraw]
    exact ⟨⟨_, rfl⟩, rfl, rfl⟩

/-- Witness of `New_type_mismatch_panics_without_kill` on `foreignEnv`. -/
theorem New_type_mismatch_panics_without_kill_witness :
    (foreignEnv "/bin/other").handshake = none
    ∧ (foreignEnv "/bin/other").dispense "source" = Except.ok foreignCapability
    ∧ foreignCapability.isSource = false
    ∧ (∃ why, (NewPluginManager.NewSource foreignEnv "/bin/other" [] []).result
          = Outcome.panicked why)
    ∧ (NewPluginManager.NewSource foreignEnv "/bin/other" [] []).effects.filterMap
          Effect.killed = []
    ∧ (NewPluginManager.NewSource foreignEnv "/bin/other" [] []).pm = NewPluginManager :=
  ⟨rfl, rfl, rfl,
    (New_type_mismatch_panics_without_kill foreignEnv NewPluginManager "/bin/other" [] []
      foreignCapability rfl).1 rfl rfl⟩

theorem Group.step_none {σ : Type} (tasks : List (σ → σ × Option GoError))
    (acc : σ × List GoError) (k : Nat) (h : tasks[k]? = none) :
    Group.step tasks acc k = acc := by
  unfold Group.step
  rw [h]

theorem Group.step_some {σ : Type} (tasks : List (σ → σ × Option GoError))
    (acc : σ × List GoError) (k : Nat) (task : σ → σ × Option GoError)
    (h : tasks[k]? = some task) :
    Group.step tasks acc k = ((task acc.1).1, acc.2 ++ (task acc.1).2.toList) := by
  unfold Group.step
  rw [h]
  rcases ht : task acc.1 with ⟨s, _ | err⟩ <;> simp [ht]

/-- The errors a group collects, when the error of each task does not depend on the
shared state: the errors of the tasks in the order in which they finish. -/
theorem Group.foldl_errs {σ : Type} (tasks : List (σ → σ × Option GoError))
    (herr : ∀ task ∈ tasks, ∀ s s', (task s).2 = (task s').2) (s0 : σ)
    (order : List Nat) (acc : σ × List GoError) :
    (order.foldl (Group.step tasks) acc).2
      = acc.2 ++ order.filterMap (fun k => (tasks[k]?).bind (fun task => (task s0).2)) := by
  induction order generalizing acc with
  | nil => simp
  | cons k ks ih =>
    rw [List.foldl_cons, ih]
    cases ht : tasks[k]? with
    | none => rw [Group.step_none tasks acc k ht]; simp [ht]
    | some task =>
      rw [Group.step_some tasks acc k task ht]
      have hmem : task ∈ tasks := List.mem_iff_getElem?.mpr ⟨k, ht⟩
      have := herr task hmem acc.1 s0
      rw [List.filterMap_cons]
      simp only [ht, Option.bind_some]
      rw [this]
      cases hs0 : (task s0).2 <;> simp [hs0]

theorem Group.run_errs {σ : Type} (tasks : List (σ → σ × Option GoError))
    (herr : ∀ task ∈ tasks, ∀ s s', (task s).2 = (task s').2) (s0 : σ)
    (order : List Nat) (init : σ) :
    (Group.run tasks order init).2
      = order.filterMap (fun k => (tasks[k]?).bind (fun task => (task s0).2)) := by
  unfold Group.run
  rw [Group.foldl_errs tasks herr s0]
  simp

/-- Reading a list at every index of its range and filtering is filtering the list. -/
theorem filterMap_range_getElem? {α β : Type} (f : α → Option β) (l : List α) :
    (List.range l.length).filterMap (fun k => (l[k]?).bind f) = l.filterMap f := by
  induction l with
  | nil => simp
  | cons a l ih =>
    rw [List.length_cons, List.range_succ_eq_map, List.filterMap_cons]
    simp only [List.getElem?_cons_zero, Option.bind_some, List.filterMap_map]
    have : ((fun k => ((a :: l)[k]?).bind f) ∘ Nat.succ) = fun k => (l[k]?).bind f := by
      funext k
      simp
    rw [this, ih]
    rw [List.filterMap_cons]
    rfl

theorem foldl_append_flatten {α : Type} (L : List (List α)) (acc : List α) :
    L.foldl (fun merged x => merged ++ x) acc = acc ++ L.flatten := by
  induction L generalizing acc with
  | nil => simp
  | cons x L ih => rw [List.foldl_cons, ih]; simp

theorem ErrorOrNil_eq_none (errs : List GoError) : ErrorOrNil errs = none ↔ errs = [] := by
  cases errs <;> simp [ErrorOrNil]

theorem ErrorOrNil_of_ne_nil (errs : List GoError) (h : errs ≠ []) :
    ErrorOrNil errs = some (FanOutError.multi errs) := by
  cases errs with
  | nil => exact absurd rfl h
  | cons e es => rfl

/-! ## Theorems: `Gather` -/

theorem gatherTask_fst (iter : Nat → RangeOrder) (h : withClient) (slot : Nat)
    (all : List (List MetricFamily)) :
    (gatherTask iter h slot all).1
      = match slotWrite iter slot h with
        | some v => all.set slot v
        | none => all := by
  unfold gatherTask slotWrite
  rcases hg : h.t.gatherer with _ | (e | mfs) <;> rfl

theorem gatherTask_snd (iter : Nat → RangeOrder) (h : withClient) (slot : Nat)
    (all : List (List MetricFamily)) :
    (gatherTask iter h slot all).2 = castError h := by
  unfold gatherTask castError
  rcases hg : h.t.gatherer with _ | (e | mfs) <;> rfl

theorem gatherTasks_getElem? (iter : Nat → RangeOrder) (pm : PluginManager) (k : Nat) :
    (gatherTasks iter pm)[k]? = (pm.handles[k]?).map (fun h => gatherTask iter h k) := by
  unfold gatherTasks PluginManager.handles
  by_cases hk : k < pm.sources.length
  · rw [List.getElem?_append_left (by simpa using hk), List.getElem?_append_left hk]
    simp
  · have hk2 : pm.sources.length ≤ k := Nat.le_of_not_lt hk
    rw [List.getElem?_append_right (by simpa using hk2), List.getElem?_append_right hk2]
    simp only [List.length_mapIdx, List.getElem?_mapIdx]
    rw [Nat.sub_add_cancel hk2]

theorem gather_step_fst (iter : Nat → RangeOrder) (pm : PluginManager)
    (acc : List (List MetricFamily) × List GoError) (k : Nat) :
    (Group.step (gatherTasks iter pm) acc k).1
      = match (pm.handles[k]?).bind (slotWrite iter k) with
        | some v => acc.1.set k v
        | none => acc.1 := by
  cases hk : pm.handles[k]? with
  | none =>
    rw [Group.step_none _ _ _ (by rw [gatherTasks_getElem?, hk]; rfl)]
    rfl
  | some h =>
    rw [Group.step_some _ _ _ (gatherTask iter h k) (by rw [gatherTasks_getElem?, hk]; rfl)]
    simp only [gatherTask_fst]
    rfl

theorem gather_step_length (iter : Nat → RangeOrder) (pm : PluginManager)
    (acc : List (List MetricFamily) × List GoError) (k : Nat) :
    (Group.step (gatherTasks iter pm) acc k).1.length = acc.1.length := by
  rw [gather_step_fst]
  cases (pm.handles[k]?).bind (slotWrite iter k) <;> simp

/-- The slot `j` after the goroutines in `order` have finished: the value written by
the goroutine of handle `j` if it has run and writes, the initial value otherwise. -/
theorem gather_foldl_slot (iter : Nat → RangeOrder) (pm : PluginManager) (order : List Nat)
    (acc : List (List MetricFamily) × List GoError) (j : Nat) :
    (order.foldl (Group.step (gatherTasks iter pm)) acc).1[j]?
      = if j ∈ order then
          match (pm.handles[j]?).bind (slotWrite iter j) with
          | some v => if j < acc.1.length then some v else none
          | none => acc.1[j]?
        else acc.1[j]? := by
  induction order generalizing acc with
  | nil => simp
  | cons k ks ih =>
    rw [List.foldl_cons, ih, gather_step_length]
    have hstep := gather_step_fst iter pm acc k
    by_cases hjk : j = k
    · subst hjk
      simp only [List.mem_cons, true_or, if_true]
      cases hw : (pm.handles[j]?).bind (slotWrite iter j) with
      | some v =>
        simp only [hw] at hstep
        simp only [hstep, List.length_set]
        split <;> simp_all [List.getElem?_set]
      | none =>
        simp only [hw] at hstep
        simp [hstep]
    · have hne : k ≠ j := fun h => hjk h.symm
      have hget : (Group.step (gatherTasks iter pm) acc k).1[j]? = acc.1[j]? := by
        rw [hstep]
        cases (pm.handles[k]?).bind (slotWrite iter k) with
        | none => rfl
        | some v => simp [List.getElem?_set_ne hne]
      simp only [List.mem_cons, hjk, false_or, hget]

/-- Once every goroutine of `Gather` has finished, in whatever order, slot `j` holds the
relabelled families of handle `j`, or nothing when its gather failed or is unsupported. -/
theorem gather_run_fst (iter : Nat → RangeOrder) (pm : PluginManager) (order : List Nat)
    (hperm : order.Perm (List.range (pm.sources.length + pm.destinations.length))) :
    (Group.run (gatherTasks iter pm) order
        (List.replicate (pm.sources.length + pm.destinations.length) [])).1
      = pm.handles.mapIdx (fun i h => slotValue iter i h) := by
  have hlen : pm.handles.length = pm.sources.length + pm.destinations.length := by
    simp [PluginManager.handles]
  apply List.ext_getElem?
  intro j
  unfold Group.run
  rw [gather_foldl_slot]
  simp only [List.length_replicate, List.getElem?_mapIdx]
  by_cases hj : j < pm.sources.length + pm.destinations.length
  · have hmem : j ∈ order := hperm.mem_iff.mpr (List.mem_range.mpr hj)
    have hj2 : j < pm.handles.length := by rw [hlen]; exact hj
    simp only [hmem, if_true, hj, List.getElem?_eq_getElem hj2, Option.bind_some,
      Option.map_some', slotValue]
    cases hw : slotWrite iter j pm.handles[j] with
    | none => simp [hw, List.getElem?_replicate, hj]
    | some v => simp [hw]
  · have hmem : j ∉ order := fun h => hj (List.mem_range.mp (hperm.mem_iff.mp h))
    have hj2 : pm.handles.length ≤ j := by rw [hlen]; exact Nat.le_of_not_lt hj
    simp [hmem, List.getElem?_replicate, hj, List.getElem?_eq_none hj2]

theorem gather_run_snd (iter : Nat → RangeOrder) (pm : PluginManager) (order : List Nat)
    (init : List (List MetricFamily)) :
    (Group.run (gatherTasks iter pm) order init).2
      = order.filterMap (fun k => (pm.handles[k]?).bind castError) := by
  rw [Group.run_errs (gatherTasks iter pm) _ init]
  · congr 1
    funext k
    rw [gatherTasks_getElem?]
    cases pm.handles[k]? with
    | none => rfl
    | some h => simp [gatherTask_snd]
  · intro task htask s s'
    obtain ⟨k, hk⟩ := List.mem_iff_getElem?.mp htask
    rw [gatherTasks_getElem?] at hk
    cases hh : pm.handles[k]? with
    | none => rw [hh] at hk; cases hk
    | some h =>
      rw [hh] at hk
      simp only [Option.map_some', Option.some.injEq] at hk
      subst hk
      rw [gatherTask_snd, gatherTask_snd]

/-- The errors `Gather` collects: one cast error for each handle that is no gatherer. -/
theorem gather_run_snd_perm (iter : Nat → RangeOrder) (pm : PluginManager)
    (order : List Nat) (init : List (List MetricFamily))
    (hperm : order.Perm (List.range (pm.sources.length + pm.destinations.length))) :
    (Group.run (gatherTasks iter pm) order init).2.Perm (pm.handles.filterMap castError) := by
  have hlen : pm.handles.length = pm.sources.length + pm.destinations.length := by
    simp [PluginManager.handles]
  rw [gather_run_snd, ← filterMap_range_getElem? castError pm.handles, hlen]
  exact hperm.filterMap _

theorem filterMap_castError_eq_nil (l : List withClient) :
    l.filterMap castError = [] ↔ ∀ h ∈ l, h.t.gatherer ≠ none := by
  rw [List.filterMap_eq_nil_iff]
  constructor
  · intro hall h hh hg
    have := hall h hh
    simp [castError, hg] at this
  · intro hall h hh
    have := hall h hh
    unfold castError
    rcases hg : h.t.gatherer with _ | (e | mfs)
    · exact absurd hg this
    · rfl
    · rfl

theorem slotValue_eq_handleFamilies (iter : Nat → RangeOrder) (slot : Nat) (h : withClient) :
    slotValue iter slot h = handleFamilies (iter slot) h := by
  unfold slotValue slotWrite handleFamilies
  rcases hg : h.t.gatherer with _ | (e | mfs) <;> rfl

theorem filterMap_castError_eq_replicate (l : List withClient) :
    l.filterMap castError
      = List.replicate (l.countP (fun h => h.t.gatherer.isNone)) (GoError.new "failed to cast") := by
  induction l with
  | nil => rfl
  | cons h l ih =>
    rw [List.filterMap_cons, List.countP_cons, ih]
    unfold castError
    rcases hg : h.t.gatherer with _ | (e | mfs) <;> simp [List.replicate_succ]

/-- `Gather` when the registry gather succeeds and every handle is a gatherer. -/
theorem Gather_ok (iter : Nat → RangeOrder) (pm : PluginManager) (m : List MetricFamily)
    (order : List Nat)
    (hperm : order.Perm (List.range (pm.sources.length + pm.destinations.length)))
    (hall : ∀ h ∈ pm.handles, h.t.gatherer ≠ none) :
    pm.Gather (Except.ok m) order iter
      = ((pm.handles.mapIdx (fun i h => handleFamilies (iter i) h)).flatten ++ m, none) := by
  have herrs : (Group.run (gatherTasks iter pm) order
      (List.replicate (pm.sources.length + pm.destinations.length) [])).2 = [] := by
    have hp := gather_run_snd_perm iter pm order
      (List.replicate (pm.sources.length + pm.destinations.length) []) hperm
    rw [(filterMap_castError_eq_nil pm.handles).mpr hall] at hp
    exact List.Perm.eq_nil hp
  have hfun : (fun i h => slotValue iter i h) = (fun i h => handleFamilies (iter i) h) := by
    funext i h
    exact slotValue_eq_handleFamilies iter i h
  unfold PluginManager.Gather
  simp only [herrs, ErrorOrNil, gather_run_fst iter pm order hperm, foldl_append_flatten,
    List.nil_append]
  rw [hfun]

/-- `Gather` when the registry gather succeeds and some handle is no gatherer. -/
theorem Gather_cast (iter : Nat → RangeOrder) (pm : PluginManager) (m : List MetricFamily)
    (order : List Nat)
    (hperm : order.Perm (List.range (pm.sources.length + pm.destinations.length)))
    (hex : ∃ h ∈ pm.handles, h.t.gatherer = none) :
    pm.Gather (Except.ok m) order iter
      = ([], some (FanOutError.multi
          (List.replicate (pm.handles.countP (fun h => h.t.gatherer.isNone))
            (GoError.new "failed to cast")))) := by
  have hp := gather_run_snd_perm iter pm order
    (List.replicate (pm.sources.length + pm.destinations.length) []) hperm
  rw [filterMap_castError_eq_replicate, List.perm_replicate] at hp
  have hpos : 0 < pm.handles.countP (fun h => h.t.gatherer.isNone) := by
    obtain ⟨h, hh, hg⟩ := hex
    exact List.countP_pos_iff.mpr ⟨h, hh, by simp [hg]⟩
  unfold PluginManager.Gather
  simp only [hp]
  obtain ⟨n, hn⟩ := Nat.exists_eq_succ_of_ne_zero (Nat.pos_iff_ne_zero.mp hpos)
  rw [hn]
  rfl

/-- C4. `Gather` fails exactly when the manager's own registry gather fails or some
handle's capability is no gatherer. A failing call returns no families; its error is the
registry's error in the first case and otherwise the aggregated error with one
`failed to cast` cause for each handle that is no gatherer. In every other case the call
succeeds and returns what each handle contributes, in registry order, followed by the
manager's own families, where a handle whose own gather fails contributes nothing. This
holds for every order in which the goroutines finish and every order in which the label
maps are ranged over. -/
theorem Gather_fails_only_structurally (pm : PluginManager)
    (regGather : Except GoError (List MetricFamily)) (order : List Nat)
    (iter : Nat → RangeOrder)
    (hperm : order.Perm (List.range (pm.sources.length + pm.destinations.length))) :
    ((pm.Gather regGather order iter).2 ≠ none
        ↔ ((∃ err, regGather = Except.error err)
            ∨ ∃ h ∈ pm.sources ++ pm.destinations, h.t.gatherer = none))
    ∧ ((pm.Gather regGather order iter).2 ≠ none → (pm.Gather regGather order iter).1 = [])
    ∧ (∀ err, regGather = Except.error err →
        (pm.Gather regGather order iter).2 = some (FanOutError.plain err))
    ∧ (∀ m, regGather = Except.ok m →
        (∃ h ∈ pm.sources ++ pm.destinations, h.t.gatherer = none) →
        (pm.Gather regGather order iter).2 = some (FanOutError.multi
          (List.replicate
            ((pm.sources ++ pm.destinations).countP (fun h => h.t.gatherer.isNone))
            (GoError.new "failed to cast"))))
    ∧ (∀ m, regGather = Except.ok m →
        (∀ h ∈ pm.sources ++ pm.destinations, h.t.gatherer ≠ none) →
        pm.Gather regGather order iter
          = (((pm.sources ++ pm.destinations).mapIdx
                (fun i h => handleFamilies (iter i) h)).flatten ++ m, none))
    ∧ (∀ (it : RangeOrder) (h : withClient) (e : GoError),
        h.t.gatherer = some (Except.error e) → handleFamilies it h = []) := by
  have hlast : ∀ (it : RangeOrder) (h : withClient) (e : GoError),
      h.t.gatherer = some (Except.error e) → handleFamilies it h = [] := by
    intro it h e he
    simp [handleFamilies, he]
  cases regGather with
  | error err =>
    refine ⟨?_, ?_, ?_, ?_, ?_, hlast⟩
    · simp [PluginManager.Gather]
    · intro _; rfl
    · intro e he; cases he; rfl
    · intro m hm; cases hm
    · intro m hm; cases hm
  | ok m =>
    by_cases hex : ∃ h ∈ pm.sources ++ pm.destinations, h.t.gatherer = none
    · have hg := Gather_cast iter pm m order hperm hex
      refine ⟨?_, ?_, ?_, ?_, ?_, hlast⟩
      · rw [hg]; exact ⟨fun _ => Or.inr hex, fun _ => by simp⟩
      · intro _; rw [hg]
      · intro e he; cases he
      · intro m2 hm _; cases hm; rw [hg]; rfl
      · intro m2 _ hall
        obtain ⟨h, hh, hn⟩ := hex
        exact absurd hn (hall h hh)
    · have hall : ∀ h ∈ pm.sources ++ pm.destinations, h.t.gatherer ≠ none :=
        fun h hh hn => hex ⟨h, hh, hn⟩
      have hg := Gather_ok iter pm m order hperm hall
      refine ⟨?_, ?_, ?_, ?_, ?_, hlast⟩
      · rw [hg]
        refine ⟨fun h => absurd rfl h, fun h => ?_⟩
        rcases h with ⟨e, he⟩ | h
        · cases he
        · exact absurd h hex
      · intro hne; rw [hg] at hne; exact absurd rfl hne
      · intro e he; cases he
      · intro m2 _ hex2; exact absurd hex2 hex
      · intro m2 hm _; cases hm; rw [hg]; rfl

/-- Witness of C4: the sample manager, whose destination fails its own gather, with the
destination's goroutine finishing first and the label map ranged over in a different
order for the two samples. The call succeeds and returns the source's relabelled family
followed by the manager's own. -/
theorem Gather_fails_only_structurally_witness :
    [1, 0].Perm (List.range (sampleManager.sources.length + sampleManager.destinations.length))
    ∧ sampleManager.Gather (Except.ok sampleOwn) [1, 0] sampleIter
        = ([{ Name := "up",
              Metric := [{ Label := [("job", "a"), ("env", "test"), ("team", "ingest")],
                           payload := 1 },
                         { Label := [("job", "b"), ("team", "ingest"), ("env", "test")],
                           payload := 2 }] },
            { Name := "go_goroutines", Metric := [{ Label := [], payload := 7 }] }], none) :=
  ⟨List.Perm.swap 0 1 [],
    ((Gather_fails_only_structurally sampleManager (Except.ok sampleOwn) [1, 0] sampleIter
        (List.Perm.swap 0 1 [])).2.2.2.2.1 sampleOwn rfl
      (by
        intro h hh
        rcases List.mem_append.mp hh with h1 | h1
        · rw [List.mem_singleton.mp (h1 : h ∈ [_])]
          exact Option.some_ne_none _
        · rw [List.mem_singleton.mp (h1 : h ∈ [_])]
          exact Option.some_ne_none _))⟩

theorem forall₂_mapIdx {α β : Type} (R : α → β → Prop) (l : List α) :
    ∀ (f : Nat → α → β), (∀ i a, R a (f i a)) → List.Forall₂ R l (l.mapIdx f) := by
  induction l with
  | nil => intro f _; exact List.Forall₂.nil
  | cons a l ih =>
    intro f hf
    rw [List.mapIdx_cons]
    exact List.Forall₂.cons (hf 0 a) (ih _ (fun i b => hf (i + 1) b))

theorem forall₂_mem_right {α β : Type} (R : α → β → Prop) {l : List α} {l2 : List β}
    (h : List.Forall₂ R l l2) {b : β} (hb : b ∈ l2) : ∃ a, a ∈ l ∧ R a b := by
  induction h with
  | nil => cases hb
  | cons hab _ ih =>
    rcases List.mem_cons.mp hb with rfl | hb2
    · exact ⟨_, List.mem_cons_self _ _, hab⟩
    · obtain ⟨a, ha, hr⟩ := ih hb2
      exact ⟨a, List.mem_cons_of_mem _ ha, hr⟩

/-- Whenever every `range` over the labels yields each entry once, the families a
handle contributes are its own families with every sample relabelled. -/
theorem handleFamilies_relabelled (it : RangeOrder) (h : withClient)
    (mfs : List MetricFamily) (hit : ∀ f s l, (it f s l).Perm l)
    (hg : h.t.gatherer = some (Except.ok mfs)) :
    List.Forall₂ (familyRelabelled h.labels) mfs (handleFamilies it h) := by
  unfold handleFamilies
  rw [hg]
  apply forall₂_mapIdx
  intro fi mf
  refine ⟨rfl, ?_⟩
  apply forall₂_mapIdx
  intro si s
  exact ⟨rfl, it fi si h.labels, hit fi si h.labels, rfl⟩

theorem length_flatten_handleFamilies (l : List withClient) (M : Nat)
    (hM : ∀ h ∈ l, ∃ mfs, h.t.gatherer = some (Except.ok mfs) ∧ mfs.length = M) :
    ∀ (iter : Nat → RangeOrder),
      ((l.mapIdx (fun i h => handleFamilies (iter i) h)).flatten).length = l.length * M := by
  induction l with
  | nil => intro iter; simp
  | cons h l ih =>
    intro iter
    obtain ⟨mfs, hg, hlen⟩ := hM h (List.mem_cons_self h l)
    have ih2 := ih (fun x hx => hM x (List.mem_cons_of_mem h hx)) (fun i => iter (i + 1))
    rw [List.mapIdx_cons, List.flatten_cons, List.length_append, ih2, List.length_cons]
    simp only [handleFamilies, hg, List.length_mapIdx, hlen]
    rw [Nat.succ_mul, Nat.add_comm]

/-- C5. When `Gather` succeeds, whatever the order in which the goroutines finish and
whatever the order in which each `range` yields the entries of a label map, its families
are the reference merge: what each source contributes in registry order, then each
destination, then the manager's own, unchanged. What a handle contributes are its own
families where every sample has one label pair appended for each entry of that handle's
labels and nothing else changed; every such family is in the result and each of its
samples carries every label of its handle. With every handle reporting `M` families the
result holds `N * M` families plus the manager's own, hence at least `N * M`. -/
theorem Gather_eq_referenceMerge (pm : PluginManager) (m : List MetricFamily)
    (order : List Nat) (iter : Nat → RangeOrder)
    (hperm : order.Perm (List.range (pm.sources.length + pm.destinations.length)))
    (hiter : ∀ slot f s l, (iter slot f s l).Perm l)
    (hok : (pm.Gather (Except.ok m) order iter).2 = none) :
    (pm.Gather (Except.ok m) order iter).1 = referenceMerge iter pm m
    ∧ (∀ i h, (pm.sources ++ pm.destinations)[i]? = some h →
        (∀ mfs, h.t.gatherer = some (Except.ok mfs) →
          List.Forall₂ (familyRelabelled h.labels) mfs (handleFamilies (iter i) h))
        ∧ (∀ mf ∈ handleFamilies (iter i) h,
            mf ∈ (pm.Gather (Except.ok m) order iter).1
            ∧ ∀ s ∈ mf.Metric, ∀ l ∈ h.labels, l ∈ s.Label))
    ∧ (∀ M, (∀ h ∈ pm.sources ++ pm.destinations,
          ∃ mfs, h.t.gatherer = some (Except.ok mfs) ∧ mfs.length = M) →
        (pm.Gather (Except.ok m) order iter).1.length
            = (pm.sources.length + pm.destinations.length) * M + m.length
        ∧ (pm.sources.length + pm.destinations.length) * M
            ≤ (pm.Gather (Except.ok m) order iter).1.length) := by
  have hall : ∀ h ∈ pm.handles, h.t.gatherer ≠ none := by
    intro h hh hn
    rw [Gather_cast iter pm m order hperm ⟨h, hh, hn⟩] at hok
    cases hok
  have hg := Gather_ok iter pm m order hperm hall
  rw [hg]
  refine ⟨?_, ?_, ?_⟩
  · simp only [referenceMerge, PluginManager.handles, List.mapIdx_append,
      List.flatten_append]
  · intro i h hi
    refine ⟨fun mfs hgat => handleFamilies_relabelled (iter i) h mfs (hiter i) hgat, ?_⟩
    intro mf hmf
    constructor
    · apply List.mem_append_left
      refine List.mem_flatten.mpr ⟨handleFamilies (iter i) h, ?_, hmf⟩
      obtain ⟨hlt, hget⟩ := List.getElem?_eq_some.mp hi
      exact List.mem_mapIdx.mpr ⟨i, hlt, by rw [← hget]; rfl⟩
    · intro s hs l hl
      rcases hgat : h.t.gatherer with _ | (e | mfs)
      · simp [handleFamilies, hgat] at hmf
      · simp [handleFamilies, hgat] at hmf
      · have hrel := handleFamilies_relabelled (iter i) h mfs (hiter i) hgat
        obtain ⟨mf0, _, hfam⟩ := forall₂_mem_right _ hrel hmf
        obtain ⟨s0, _, -, ps, hps, hlab⟩ := forall₂_mem_right _ hfam.2 hs
        rw [hlab]
        exact List.mem_append_right _ (hps.mem_iff.mpr hl)
  · intro M hM
    have hlen := length_flatten_handleFamilies pm.handles M hM iter
    have hN : pm.handles.length = pm.sources.length + pm.destinations.length := by
      simp [PluginManager.handles]
    rw [List.length_append, hlen, hN]
    exact ⟨rfl, Nat.le_add_right _ _⟩

theorem sampleIter_perm (slot f s : Nat) (l : Labels) : (sampleIter slot f s l).Perm l := by
  unfold sampleIter
  split
  · exact List.Perm.refl l
  · exact List.reverse_perm l

/-- Witness of C5: the sample manager with the goroutines finishing in reverse order and
the label map ranged over in a different order for the two samples of the source. -/
theorem Gather_eq_referenceMerge_witness :
    [1, 0].Perm (List.range (sampleManager.sources.length + sampleManager.destinations.length))
    ∧ (sampleManager.Gather (Except.ok sampleOwn) [1, 0] sampleIter).2 = none
    ∧ (sampleManager.Gather (Except.ok sampleOwn) [1, 0] sampleIter).1
        = referenceMerge sampleIter sampleManager sampleOwn
    ∧ (sampleManager.Gather (Except.ok sampleOwn) [1, 0] sampleIter).1.length = 2 :=
  ⟨List.Perm.swap 0 1 [], rfl,
    (Gather_eq_referenceMerge sampleManager sampleOwn [1, 0] sampleIter
      (List.Perm.swap 0 1 []) sampleIter_perm rfl).1, rfl⟩

/-! ## Theorems: `Stop` -/

theorem stopTasks_getElem? (pm : PluginManager) (k : Nat) :
    (stopTasks pm)[k]? = (pm.handles[k]?).map (fun h => stopTask h.c) := by
  unfold stopTasks PluginManager.handles
  rw [← List.map_append, List.getElem?_map]

theorem stop_foldl (pm : PluginManager) (order : List Nat) (acc : List Effect × List GoError) :
    order.foldl (Group.step (stopTasks pm)) acc
      = (acc.1 ++ order.filterMap (fun k => (pm.handles[k]?).map (fun h => Effect.kill h.c)),
          acc.2) := by
  induction order generalizing acc with
  | nil => simp
  | cons k ks ih =>
    rw [List.foldl_cons, ih, List.filterMap_cons]
    cases hk : pm.handles[k]? with
    | none =>
      rw [Group.step_none _ _ _ (by rw [stopTasks_getElem?, hk]; rfl)]
      rfl
    | some h =>
      rw [Group.step_some _ _ _ (stopTask h.c) (by rw [stopTasks_getElem?, hk]; rfl)]
      simp [stopTask]

/-- The goroutines of `Stop` never return an error, and the kills they issue are those
of the handles whose goroutine has run. -/
theorem stop_run (pm : PluginManager) (order : List Nat) :
    Group.run (stopTasks pm) order []
      = (order.filterMap (fun k => (pm.handles[k]?).map (fun h => Effect.kill h.c)), []) := by
  unfold Group.run
  rw [stop_foldl]
  rfl

theorem Stop_eq (pm : PluginManager) (order : List Nat) :
    pm.Stop order
      = { result := Outcome.returned ()
          pm := { pm with destinations := [], sources := [] }
          effects := order.filterMap
            (fun k => (pm.handles[k]?).map (fun h => Effect.kill h.c)) } := by
  unfold PluginManager.Stop
  simp only [stop_run]
  rfl

/-- C7. `Stop` returns without reaching its panic branch and leaves both sequences
empty; once every goroutine has finished, the kills issued are, up to their order, one
for the client of each handle that was registered. On an empty manager `Stop` issues no
kill and changes nothing, and a second `Stop` issues no kill, does not panic and leaves
the registry as the first did. -/
theorem Stop_clears_and_kills_each_once (pm : PluginManager) (order order2 : List Nat)
    (hperm : order.Perm (List.range (pm.sources.length + pm.destinations.length))) :
    (pm.Stop order).result = Outcome.returned ()
    ∧ (pm.Stop order).pm.sources = []
    ∧ (pm.Stop order).pm.destinations = []
    ∧ (pm.Stop order).effects.Perm
        ((pm.sources ++ pm.destinations).map (fun h => Effect.kill h.c))
    ∧ (pm.sources = [] → pm.destinations = [] →
        (pm.Stop order).effects = [] ∧ (pm.Stop order).pm = pm)
    ∧ ((pm.Stop order).pm.Stop order2).result = Outcome.returned ()
    ∧ ((pm.Stop order).pm.Stop order2).effects = []
    ∧ ((pm.Stop order).pm.Stop order2).pm = (pm.Stop order).pm := by
  have hkills : (order.filterMap (fun k : Nat => (pm.handles[k]?).map (fun h : withClient => Effect.kill h.c))).Perm
      ((pm.sources ++ pm.destinations).map (fun h => Effect.kill h.c)) := by
    have hlen : pm.handles.length = pm.sources.length + pm.destinations.length := by
      simp [PluginManager.handles]
    have h1 := hperm.filterMap
      (fun k : Nat => (pm.handles[k]?).map (fun h : withClient => Effect.kill h.c))
    have h2 := filterMap_range_getElem? (fun h : withClient => some (Effect.kill h.c)) pm.handles
    rw [hlen] at h2
    have h3 : (fun k : Nat => (pm.handles[k]?).bind (fun h : withClient => some (Effect.kill h.c)))
        = (fun k : Nat => (pm.handles[k]?).map (fun h : withClient => Effect.kill h.c)) := by
      funext k
      cases pm.handles[k]? <;> rfl
    have h4 : ∀ l : List withClient,
        l.filterMap (fun h => some (Effect.kill h.c)) = l.map (fun h => Effect.kill h.c) := by
      intro l
      induction l with
      | nil => rfl
      | cons a l ih => rw [List.filterMap_cons, ih]; rfl
    rw [h3, h4] at h2
    rw [h2] at h1
    exact h1
  rw [Stop_eq pm order]
  refine ⟨rfl, rfl, rfl, hkills, ?_, ?_, ?_, ?_⟩
  · intro hs hd
    constructor
    · have hnil : (pm.sources ++ pm.destinations).map (fun h => Effect.kill h.c) = [] := by
        rw [hs, hd]; rfl
      rw [hnil] at hkills
      exact List.Perm.eq_nil hkills
    · cases pm
      simp only at hs hd
      subst hs hd
      rfl
  · rw [Stop_eq]
  · rw [Stop_eq]
    simp [PluginManager.handles]
  · rw [Stop_eq]

/-- Witness of C7 on the sample manager, the destination being killed first. -/
theorem Stop_clears_and_kills_each_once_witness :
    [1, 0].Perm (List.range (sampleManager.sources.length + sampleManager.destinations.length))
    ∧ (sampleManager.Stop [1, 0]).result = Outcome.returned ()
    ∧ (sampleManager.Stop [1, 0]).pm.sources = []
    ∧ (sampleManager.Stop [1, 0]).pm.destinations = []
    ∧ (sampleManager.Stop [1, 0]).effects.Perm
        ((sampleManager.sources ++ sampleManager.destinations).map
          (fun h => Effect.kill h.c)) :=
  ⟨List.Perm.swap 0 1 [],
    (Stop_clears_and_kills_each_once sampleManager [1, 0] [] (List.Perm.swap 0 1 [])).1,
    (Stop_clears_and_kills_each_once sampleManager [1, 0] [] (List.Perm.swap 0 1 [])).2.1,
    (Stop_clears_and_kills_each_once sampleManager [1, 0] [] (List.Perm.swap 0 1 [])).2.2.1,
    (Stop_clears_and_kills_each_once sampleManager [1, 0] [] (List.Perm.swap 0 1 [])).2.2.2.1⟩

/-! ## Theorems: `Watch` -/

theorem watchSourceTask_snd (o : ProbeOutcome) (u u2 : Unit) :
    (watchSourceTask o u).2 = (watchSourceTask o u2).2 := by
  cases o <;> rfl

theorem watchDestinationTask_snd (o : ProbeOutcome) (u u2 : Unit) :
    (watchDestinationTask o u).2 = (watchDestinationTask o u2).2 := by
  cases o <;> rfl

theorem mem_watchTasks (pm : PluginManager) (t : Tick) (task : Unit → Unit × Option GoError)
    (h : task ∈ watchTasks pm t) :
    (∃ i, i < pm.sources.length ∧ task = watchSourceTask (t.sources i))
      ∨ (∃ i, i < pm.destinations.length ∧ task = watchDestinationTask (t.destinations i)) := by
  unfold watchTasks at h
  rcases List.mem_append.mp h with h1 | h1
  · obtain ⟨i, hi, rfl⟩ := List.mem_map.mp h1
    exact Or.inl ⟨i, List.mem_range.mp hi, rfl⟩
  · obtain ⟨i, hi, rfl⟩ := List.mem_map.mp h1
    exact Or.inr ⟨i, List.mem_range.mp hi, rfl⟩

/-- The errors collected on a tick: those of the probes, in finishing order. -/
theorem watch_run_errs (pm : PluginManager) (t : Tick) :
    (Group.run (watchTasks pm t) t.order ()).2
      = t.order.filterMap (fun k => ((watchTasks pm t)[k]?).bind (fun task => (task ()).2)) := by
  apply Group.run_errs
  intro task htask u u2
  rcases mem_watchTasks pm t task htask with ⟨i, _, rfl⟩ | ⟨i, _, rfl⟩
  · exact watchSourceTask_snd _ _ _
  · exact watchDestinationTask_snd _ _ _

theorem watchTasks_source (pm : PluginManager) (t : Tick) (i : Nat)
    (hi : i < pm.sources.length) :
    (watchTasks pm t)[i]? = some (watchSourceTask (t.sources i)) := by
  unfold watchTasks
  rw [List.getElem?_append_left (by simpa using hi)]
  simp [List.getElem?_range hi]

theorem watchTasks_destination (pm : PluginManager) (t : Tick) (i : Nat)
    (hi : i < pm.destinations.length) :
    (watchTasks pm t)[pm.sources.length + i]?
      = some (watchDestinationTask (t.destinations i)) := by
  unfold watchTasks
  rw [List.getElem?_append_right (by simp)]
  simp [List.getElem?_range hi]

/-- On a healthy tick the loop of `Watch` goes on, whatever the finishing order. -/
theorem watchStep_healthy (pm : PluginManager) (t : Tick) (h : t.healthy pm) :
    pm.watchStep (WatchEvent.tick t) = none := by
  have herrs : (Group.run (watchTasks pm t) t.order ()).2 = [] := by
    rw [watch_run_errs, List.filterMap_eq_nil_iff]
    intro k _
    cases hk : (watchTasks pm t)[k]? with
    | none => rfl
    | some task =>
      rcases mem_watchTasks pm t task (List.getElem?_mem hk) with ⟨i, hi, rfl⟩ | ⟨i, hi, rfl⟩
      · simp [h.1 i hi, watchSourceTask]
      · simp [h.2 i hi, watchDestinationTask]
  unfold PluginManager.watchStep
  simp only [herrs, ErrorOrNil]

theorem Watch_skips_healthy_ticks (pm : PluginManager) (pre rest : List WatchEvent)
    (hpre : ∀ ev ∈ pre, ∃ t, ev = WatchEvent.tick t ∧ t.healthy pm) :
    pm.Watch (pre ++ rest) = pm.Watch rest := by
  induction pre with
  | nil => rfl
  | cons ev pre ih =>
    obtain ⟨t, rfl, ht⟩ := hpre _ (List.mem_cons_self _ _)
    rw [List.cons_append, PluginManager.Watch, watchStep_healthy pm t ht]
    exact ih (fun e he => hpre e (List.mem_cons_of_mem _ he))

/-- C6. `Watch` on a sequence of events: after any number of healthy ticks it is still
running; a cancellation then makes it return nil; and the first tick on which some
handle's client lookup or ping fails makes it return, whatever events follow, a non-nil
aggregated error whose causes contain the wrapped failure of every failing handle. -/
theorem Watch_returns_on_cancel_or_first_failure (pm : PluginManager)
    (pre rest : List WatchEvent)
    (hpre : ∀ ev ∈ pre, ∃ t, ev = WatchEvent.tick t ∧ t.healthy pm) :
    pm.Watch pre = WatchStatus.running
    ∧ pm.Watch (pre ++ WatchEvent.cancel :: rest) = WatchStatus.returned none
    ∧ (∀ t : Tick,
        t.order.Perm (List.range (pm.sources.length + pm.destinations.length)) →
        ((∃ i, i < pm.sources.length ∧ t.sources i ≠ ProbeOutcome.ok)
          ∨ (∃ i, i < pm.destinations.length ∧ t.destinations i ≠ ProbeOutcome.ok)) →
        ∃ causes, pm.Watch (pre ++ WatchEvent.tick t :: rest)
            = WatchStatus.returned (some (FanOutError.multi causes))
          ∧ causes ≠ []
          ∧ (∀ i e, i < pm.sources.length →
              (t.sources i = ProbeOutcome.clientErr e →
                GoError.wrapf "source client not initialized" e ∈ causes)
              ∧ (t.sources i = ProbeOutcome.pingErr e →
                GoError.wrapf "failed to ping source" e ∈ causes))
          ∧ (∀ i e, i < pm.destinations.length →
              (t.destinations i = ProbeOutcome.clientErr e →
                GoError.wrapf "destination client not initialized" e ∈ causes)
              ∧ (t.destinations i = ProbeOutcome.pingErr e →
                GoError.wrapf "failed to ping destination" e ∈ causes))) := by
  refine ⟨?_, ?_, ?_⟩
  · have := Watch_skips_healthy_ticks pm pre [] hpre
    rw [List.append_nil] at this
    rw [this]
    rfl
  · rw [Watch_skips_healthy_ticks pm pre _ hpre]
    rfl
  · intro t hperm hfail
    rw [Watch_skips_healthy_ticks pm pre _ hpre]
    have hsrc : ∀ i e, i < pm.sources.length → (watchSourceTask (t.sources i) ()).2 = some e →
        e ∈ (Group.run (watchTasks pm t) t.order ()).2 := by
      intro i e hi he
      rw [watch_run_errs]
      refine List.mem_filterMap.mpr ⟨i, hperm.mem_iff.mpr (List.mem_range.mpr (by omega)), ?_⟩
      rw [watchTasks_source pm t i hi]
      exact he
    have hdst : ∀ i e, i < pm.destinations.length →
        (watchDestinationTask (t.destinations i) ()).2 = some e →
        e ∈ (Group.run (watchTasks pm t) t.order ()).2 := by
      intro i e hi he
      rw [watch_run_errs]
      refine List.mem_filterMap.mpr
        ⟨pm.sources.length + i, hperm.mem_iff.mpr (List.mem_range.mpr (by omega)), ?_⟩
      rw [watchTasks_destination pm t i hi]
      exact he
    have hne : (Group.run (watchTasks pm t) t.order ()).2 ≠ [] := by
      rcases hfail with ⟨i, hi, ho⟩ | ⟨i, hi, ho⟩
      · cases hoc : t.sources i with
        | ok => exact absurd hoc ho
        | clientErr e =>
          exact List.ne_nil_of_mem (hsrc i _ hi (by rw [hoc]; rfl))
        | pingErr e =>
          exact List.ne_nil_of_mem (hsrc i _ hi (by rw [hoc]; rfl))
      · cases hoc : t.destinations i with
        | ok => exact absurd hoc ho
        | clientErr e =>
          exact List.ne_nil_of_mem (hdst i _ hi (by rw [hoc]; rfl))
        | pingErr e =>
          exact List.ne_nil_of_mem (hdst i _ hi (by rw [hoc]; rfl))
    refine ⟨(Group.run (watchTasks pm t) t.order ()).2, ?_, hne, ?_, ?_⟩
    · rw [PluginManager.Watch, PluginManager.watchStep, ErrorOrNil_of_ne_nil _ hne]
    · intro i e hi
      exact ⟨fun ho => hsrc i _ hi (by rw [ho]; rfl), fun ho => hsrc i _ hi (by rw [ho]; rfl)⟩
    · intro i e hi
      exact ⟨fun ho => hdst i _ hi (by rw [ho]; rfl), fun ho => hdst i _ hi (by rw [ho]; rfl)⟩

/-- Witness of C6 on the sample manager: two healthy ticks, then a tick on which the
ping of the destination fails, then a further tick that is never processed. -/
theorem Watch_returns_on_cancel_or_first_failure_witness :
    sampleManager.Watch [WatchEvent.tick healthyTick, WatchEvent.tick healthyTick]
        = WatchStatus.running
    ∧ sampleManager.Watch ([WatchEvent.tick healthyTick, WatchEvent.tick healthyTick]
          ++ WatchEvent.cancel :: [WatchEvent.tick failingTick])
        = WatchStatus.returned none
    ∧ ∃ causes, sampleManager.Watch
          ([WatchEvent.tick healthyTick, WatchEvent.tick healthyTick]
            ++ WatchEvent.tick failingTick :: [WatchEvent.tick healthyTick])
          = WatchStatus.returned (some (FanOutError.multi causes))
        ∧ GoError.wrapf "failed to ping destination" (GoError.new "connection is shut down")
            ∈ causes :=
  have hpre : ∀ ev ∈ [WatchEvent.tick healthyTick, WatchEvent.tick healthyTick],
      ∃ t, ev = WatchEvent.tick t ∧ t.healthy sampleManager := by
    intro ev hev
    refine ⟨healthyTick, ?_, fun _ _ => rfl, fun _ _ => rfl⟩
    rcases List.mem_cons.mp hev with h | h
    · exact h
    · exact List.mem_singleton.mp h
  ⟨(Watch_returns_on_cancel_or_first_failure sampleManager _ [] hpre).1,
    (Watch_returns_on_cancel_or_first_failure sampleManager _
      [WatchEvent.tick failingTick] hpre).2.1,
    by
      obtain ⟨causes, hw, _, _, hd⟩ :=
        (Watch_returns_on_cancel_or_first_failure sampleManager _
          [WatchEvent.tick healthyTick] hpre).2.2 failingTick (List.Perm.swap 0 1 [])
          (Or.inr ⟨0, Nat.zero_lt_one, by simp [failingTick]⟩)
      exact ⟨causes, hw, (hd 0 _ Nat.zero_lt_one).2 rfl⟩⟩

/-! ## Theorems: the instrumented proxies -/

theorem CounterVec.With_rpc (cv : CounterVec)
    (h : cv.variableLabels = ["rpc_method", "result"]) (method result : String) :
    cv.With [("rpc_method", method), ("result", result)] = some [method, result] := by
  unfold CounterVec.With
  rw [h]
  simp [labelValues, List.lookup]

theorem CounterVec.With_rpc_dash (cv : CounterVec)
    (h : cv.variableLabels = ["rpc_method", "result"]) (method result : String) :
    cv.With [("rpc-method", method), ("result", result)] = none := by
  unfold CounterVec.With
  rw [h]
  simp [labelValues, List.lookup]

theorem CounterVec.WithInc_rpc (cv : CounterVec)
    (h : cv.variableLabels = ["rpc_method", "result"]) (method result : String) :
    cv.WithInc [("rpc_method", method), ("result", result)]
      = Outcome.returned (cv.Inc [method, result]) := by
  unfold CounterVec.WithInc
  rw [CounterVec.With_rpc cv h]

theorem CounterVec.WithOnly_rpc (cv : CounterVec)
    (h : cv.variableLabels = ["rpc_method", "result"]) (method result : String) :
    cv.WithOnly [("rpc_method", method), ("result", result)] = Outcome.returned cv := by
  unfold CounterVec.WithOnly
  rw [CounterVec.With_rpc cv h]

/-- C2 (the code at the failing inputs). Four calls of the proxies do not count as the
claim says: a successful source `Reset` changes no counter; a failing source `CleanUp`
increments the counter of the method name `CLeanUp` and leaves `(CleanUp, failed)`
unchanged; a successful destination `Configure` panics in `With`, because the label
`rpc_method` is missing; a failing destination `Store` increments `(Store, success)` and
leaves `(Store, failed)` unchanged. -/
theorem proxy_counters_miscount (so : instrumentedPluginSourceRPC)
    (d : instrumentedPluginDestinationRPC) (ctx : Context) (s : Codec) (obj : Object)
    (conf : Config)
    (hso : so.cv.variableLabels = ["rpc_method", "result"])
    (hd : d.cv.variableLabels = ["rpc_method", "result"]) :
    (so.pluginSourceRPC.Reset ctx = none →
        (so.Reset ctx).out = Outcome.returned none
        ∧ ∀ k, (so.Reset ctx).cv.value k = so.cv.value k)
    ∧ (∀ err, so.pluginSourceRPC.CleanUp ctx s = some err →
        (so.CleanUp ctx s).out = Outcome.returned (some err)
        ∧ (so.CleanUp ctx s).cv.value ["CleanUp", "failed"]
            = so.cv.value ["CleanUp", "failed"]
        ∧ (so.CleanUp ctx s).cv.value ["CLeanUp", "failed"]
            = so.cv.value ["CLeanUp", "failed"] + 1)
    ∧ (d.pluginDestinationRPC.Configure conf = none →
        (∃ why, (d.Configure conf).out = Outcome.panicked why)
        ∧ ∀ k, (d.Configure conf).cv.value k = d.cv.value k)
    ∧ (∀ u err, d.pluginDestinationRPC.Store ctx s = (u, some err) →
        (d.Store ctx s obj).out = Outcome.returned (none, some err)
        ∧ (d.Store ctx s obj).cv.value ["Store", "success"]
            = d.cv.value ["Store", "success"] + 1
        ∧ (d.Store ctx s obj).cv.value ["Store", "failed"]
            = d.cv.value ["Store", "failed"]) := by
  refine ⟨?_, ?_, ?_, ?_⟩
  · intro h
    unfold instrumentedPluginSourceRPC.Reset
    simp [h, CounterVec.WithOnly_rpc so.cv hso, ProxyRun.finish]
  · intro err h
    unfold instrumentedPluginSourceRPC.CleanUp
    simp [h, CounterVec.WithInc_rpc so.cv hso, ProxyRun.finish, CounterVec.Inc]
  · intro h
    unfold instrumentedPluginDestinationRPC.Configure
    simp [h, CounterVec.WithInc, CounterVec.With_rpc_dash d.cv hd, ProxyRun.finish]
  · intro u err h
    unfold instrumentedPluginDestinationRPC.Store
    simp [h, CounterVec.WithInc_rpc d.cv hd, ProxyRun.finish, CounterVec.Inc]

/-- Witness of `proxy_counters_miscount` on freshly built proxies: after one successful
`Reset` the counter `(Reset, success)` is still 0. -/
theorem proxy_counters_miscount_witness :
    sampleSource.Reset 0 = none
    ∧ ((newInstrumentedPLuginSourceRPC sampleSource).Reset 0).out = Outcome.returned none
    ∧ ((newInstrumentedPLuginSourceRPC sampleSource).Reset 0).cv.value ["Reset", "success"]
        = 0 :=
  ⟨rfl,
    ((proxy_counters_miscount (newInstrumentedPLuginSourceRPC sampleSource)
        (newInstrumentedPLuginDestinationRPC sampleDestination) 0 sampleCodec
        { bytes := [] } [] rfl rfl).1 rfl).1,
    ((proxy_counters_miscount (newInstrumentedPLuginSourceRPC sampleSource)
        (newInstrumentedPLuginDestinationRPC sampleDestination) 0 sampleCodec
        { bytes := [] } [] rfl rfl).1 rfl).2 ["Reset", "success"]⟩

/-- The destination proxy's `Store` calls the delegate with the context and the codec
only: the object it received is not among the arguments, and its result does not depend
on the object. -/
theorem Store_does_not_forward_object (d : instrumentedPluginDestinationRPC) (ctx : Context)
    (s : Codec) (obj obj2 : Object) :
    (d.Store ctx s obj).delegated = { method := "Store", args := [Arg.ctx ctx, Arg.codec s] }
    ∧ Arg.obj obj ∉ (d.Store ctx s obj).delegated.args
    ∧ d.Store ctx s obj = d.Store ctx s obj2 := by
  have h : (d.Store ctx s obj).delegated
      = { method := "Store", args := [Arg.ctx ctx, Arg.codec s] } := by
    unfold instrumentedPluginDestinationRPC.Store
    rcases hst : d.pluginDestinationRPC.Store ctx s with ⟨resp, _ | err⟩ <;>
      (simp only [ProxyRun.finish]; split <;> rfl)
  refine ⟨h, ?_, rfl⟩
  rw [h]
  simp

/-- C3, counterexample. The delegate's `Download` returns an object together with an
error; the proxy returns nil together with that error, not what the delegate returned. -/
theorem Download_failure_drops_value :
    ((newInstrumentedPLuginSourceRPC sampleSource).Download 0 sampleCodec).out
        = Outcome.returned (none, some (GoError.new "short read"))
    ∧ ((newInstrumentedPLuginSourceRPC sampleSource).Download 0 sampleCodec).out
        ≠ Outcome.returned
            ((newInstrumentedPLuginSourceRPC sampleSource).pluginSourceRPC.Download 0 sampleCodec) := by
  have h : ((newInstrumentedPLuginSourceRPC sampleSource).Download 0 sampleCodec).out
      = Outcome.returned (none, some (GoError.new "short read")) := rfl
  refine ⟨h, ?_⟩
  rw [h]
  decide

/-- C3, amended. With the counter labelled `rpc_method`, `result`: every source method,
and the destination methods `Gather`, `Stat` and a failing `Configure`, call the delegate
with exactly the arguments the proxy received; every source method and the destination
methods `Gather`, `Stat` and `Store` return the delegate's error, and so does the
destination `Configure` when the delegate fails; the value returned is the delegate's
value when the delegate returned no error (for `Gather` also when it returned one) and
nil when `Download`, `Next`, `Stat` or `Store` fail. -/
theorem proxy_returns_delegate_error_and_success_value (so : instrumentedPluginSourceRPC)
    (d : instrumentedPluginDestinationRPC) (ctx : Context) (s : Codec) (obj : Object)
    (conf : Config)
    (hso : so.cv.variableLabels = ["rpc_method", "result"])
    (hd : d.cv.variableLabels = ["rpc_method", "result"]) :
    (so.Gather.delegated = { method := "Gather", args := [] }
      ∧ so.Gather.out = Outcome.returned so.pluginSourceRPC.Gather)
    ∧ ((so.CleanUp ctx s).delegated = { method := "CleanUp", args := [Arg.ctx ctx, Arg.codec s] }
      ∧ (so.CleanUp ctx s).out = Outcome.returned (so.pluginSourceRPC.CleanUp ctx s))
    ∧ ((so.Configure conf).delegated = { method := "Configure", args := [Arg.conf conf] }
      ∧ (so.Configure conf).out = Outcome.returned (so.pluginSourceRPC.Configure conf))
    ∧ ((so.Download ctx s).delegated
          = { method := "Download", args := [Arg.ctx ctx, Arg.codec s] }
      ∧ (so.Download ctx s).out = Outcome.returned
          (match (so.pluginSourceRPC.Download ctx s).2 with
            | none => (so.pluginSourceRPC.Download ctx s).1
            | some _ => none,
           (so.pluginSourceRPC.Download ctx s).2))
    ∧ ((so.Next ctx).delegated = { method := "Next", args := [Arg.ctx ctx] }
      ∧ (so.Next ctx).out = Outcome.returned
          (match (so.pluginSourceRPC.Next ctx).2 with
            | none => some (so.pluginSourceRPC.Next ctx).1
            | some _ => none,
           (so.pluginSourceRPC.Next ctx).2))
    ∧ ((so.Reset ctx).delegated = { method := "Reset", args := [Arg.ctx ctx] }
      ∧ (so.Reset ctx).out = Outcome.returned (so.pluginSourceRPC.Reset ctx))
    ∧ (d.Gather.delegated = { method := "Gather", args := [] }
      ∧ d.Gather.out = Outcome.returned d.pluginDestinationRPC.Gather)
    ∧ (∀ err, d.pluginDestinationRPC.Configure conf = some err →
        (d.Configure conf).delegated = { method := "Configure", args := [Arg.conf conf] }
        ∧ (d.Configure conf).out = Outcome.returned (some err))
    ∧ ((d.Stat ctx s).delegated = { method := "Stat", args := [Arg.ctx ctx, Arg.codec s] }
      ∧ (d.Stat ctx s).out = Outcome.returned
          (match (d.pluginDestinationRPC.Stat ctx s).2 with
            | none => some (d.pluginDestinationRPC.Stat ctx s).1
            | some _ => none,
           (d.pluginDestinationRPC.Stat ctx s).2))
    ∧ (d.Store ctx s obj).out = Outcome.returned
          (match (d.pluginDestinationRPC.Store ctx s).2 with
            | none => some (d.pluginDestinationRPC.Store ctx s).1
            | some _ => none,
           (d.pluginDestinationRPC.Store ctx s).2) := by
  refine ⟨?_, ?_, ?_, ?_, ?_, ?_, ?_, ?_, ?_, ?_⟩
  · unfold instrumentedPluginSourceRPC.Gather
    rcases h : so.pluginSourceRPC.Gather with ⟨resp, _ | err⟩ <;>
      simp [CounterVec.WithInc_rpc so.cv hso, ProxyRun.finish]
  · unfold instrumentedPluginSourceRPC.CleanUp
    rcases h : so.pluginSourceRPC.CleanUp ctx s with _ | err <;>
      simp [CounterVec.WithInc_rpc so.cv hso, ProxyRun.finish]
  · unfold instrumentedPluginSourceRPC.Configure
    rcases h : so.pluginSourceRPC.Configure conf with _ | err <;>
      simp [CounterVec.WithInc_rpc so.cv hso, ProxyRun.finish]
  · unfold instrumentedPluginSourceRPC.Download
    rcases h : so.pluginSourceRPC.Download ctx s with ⟨resp, _ | err⟩ <;>
      simp [CounterVec.WithInc_rpc so.cv hso, ProxyRun.finish]
  · unfold instrumentedPluginSourceRPC.Next
    rcases h : so.pluginSourceRPC.Next ctx with ⟨resp, _ | err⟩ <;>
      simp [CounterVec.WithInc_rpc so.cv hso, ProxyRun.finish]
  · unfold instrumentedPluginSourceRPC.Reset
    rcases h : so.pluginSourceRPC.Reset ctx with _ | err <;>
      simp [CounterVec.WithInc_rpc so.cv hso, CounterVec.WithOnly_rpc so.cv hso,
        ProxyRun.finish]
  · unfold instrumentedPluginDestinationRPC.Gather
    rcases h : d.pluginDestinationRPC.Gather with ⟨resp, _ | err⟩ <;>
      simp [CounterVec.WithInc_rpc d.cv hd, ProxyRun.finish]
  · intro err h
    unfold instrumentedPluginDestinationRPC.Configure
    simp [h, CounterVec.WithInc_rpc d.cv hd, ProxyRun.finish]
  · unfold instrumentedPluginDestinationRPC.Stat
    rcases h : d.pluginDestinationRPC.Stat ctx s with ⟨resp, _ | err⟩ <;>
      simp [CounterVec.WithInc_rpc d.cv hd, ProxyRun.finish]
  · unfold instrumentedPluginDestinationRPC.Store
    rcases h : d.pluginDestinationRPC.Store ctx s with ⟨resp, _ | err⟩ <;>
      simp [CounterVec.WithInc_rpc d.cv hd, ProxyRun.finish]

/-- Witness of the amended C3 on freshly built proxies: `Next` returns the delegate's
codec and no error. -/
theorem proxy_returns_delegate_error_and_success_value_witness :
    (newInstrumentedPLuginSourceRPC sampleSource).cv.variableLabels = ["rpc_method", "result"]
    ∧ ((newInstrumentedPLuginSourceRPC sampleSource).Next 0).out
        = Outcome.returned (some { ID := "1", Name := "a.txt" }, none) :=
  ⟨rfl,
    (proxy_returns_delegate_error_and_success_value (newInstrumentedPLuginSourceRPC sampleSource)
      (newInstrumentedPLuginDestinationRPC sampleDestination) 0 sampleCodec { bytes := [] } []
      rfl rfl).2.2.2.2.1.2⟩

/-! ## Theorems: the drive storage -/

theorem splitSlash_ne_nil (cs : List Char) : splitSlash cs ≠ [] := by
  induction cs with
  | nil => simp [splitSlash]
  | cons c cs ih =>
    unfold splitSlash
    split
    · simp
    · cases h : splitSlash cs with
      | nil => exact absurd h ih
      | cons p ps => simp

theorem stringsSplit_ne_nil (folder : String) : stringsSplit folder ≠ [] := by
  unfold stringsSplit
  intro h
  exact splitSlash_ne_nil folder.toList (List.map_eq_nil_iff.mp h)

theorem FindState.count_returned {σ : Type} (st st2 : FindState σ) (o r : String)
    (h : st.count o r = Outcome.returned st2) : st2.calls = st.calls := by
  unfold FindState.count at h
  cases hg : st.gdcot with
  | none => simp only [hg] at h; cases h
  | some cv =>
    simp only [hg] at h
    cases hw : cv.WithLabelValues [o, r] with
    | none => simp only [hw] at h; cases h
    | some lvs =>
      simp only [hw] at h
      cases h
      rfl

theorem FindState.count_panicked {σ : Type} (st : FindState σ) (o r why : String)
    (h : st.count o r = Outcome.panicked why) : why ≠ indexOutOfRange := by
  unfold FindState.count at h
  cases hg : st.gdcot with
  | none =>
    simp only [hg] at h
    cases h
    decide
  | some cv =>
    simp only [hg] at h
    cases hw : cv.WithLabelValues [o, r] with
    | none =>
      simp only [hw] at h
      cases h
      decide
    | some lvs => simp only [hw] at h; cases h

theorem safeRun_refl {σ α : Type} (good : Nat × List String → Prop) (st : FindState σ)
    (out : Outcome α) (hout : out ≠ Outcome.panicked indexOutOfRange) :
    safeRun good st (out, st) :=
  ⟨⟨[], by simp, fun _ h => absurd h (List.not_mem_nil _)⟩, hout⟩

theorem safeRun_trans {σ α β : Type} (good : Nat × List String → Prop)
    (st st1 : FindState σ) (out1 : Outcome α) (r : Outcome β × FindState σ)
    (h1 : safeRun good st (out1, st1)) (h2 : safeRun good st1 r) : safeRun good st r := by
  obtain ⟨⟨new1, hc1, hg1⟩, _⟩ := h1
  obtain ⟨⟨new2, hc2, hg2⟩, hout⟩ := h2
  refine ⟨⟨new1 ++ new2, ?_, ?_⟩, hout⟩
  · rw [hc2, hc1, List.append_assoc]
  · intro c hc
    rcases List.mem_append.mp hc with h | h
    · exact hg1 c h
    · exact hg2 c h

theorem safeRun_of_calls_eq {σ α : Type} (good : Nat × List String → Prop)
    (st st1 : FindState σ) (out : Outcome α) (hcalls : st1.calls = st.calls)
    (hout : out ≠ Outcome.panicked indexOutOfRange) : safeRun good st (out, st1) :=
  ⟨⟨[], by simp [hcalls], fun _ h => absurd h (List.not_mem_nil _)⟩, hout⟩

theorem safeRun_outcome {σ α β : Type} (good : Nat × List String → Prop)
    (st st1 : FindState σ) (out1 : Outcome α) (out : Outcome β)
    (h1 : safeRun good st (out1, st1)) (hout : out ≠ Outcome.panicked indexOutOfRange) :
    safeRun good st (out, st1) :=
  ⟨h1.1, hout⟩

/-- The loop of `find` is safe when its recursive calls, made only when
`len(parts) != 1`, are. -/
theorem findLoop_safe {σ : Type} (good : Nat × List String → Prop)
    (recurse : String → FindState σ → Outcome (Except GoError File) × FindState σ)
    (parent : String) (single : Bool)
    (hrec : single = false → ∀ id s, safeRun good s (recurse id s)) :
    ∀ (files : List File) (st : FindState σ),
      safeRun good st (findLoop recurse parent single files st) := by
  intro files
  cases single with
  | true =>
    induction files with
    | nil =>
      intro st
      exact safeRun_refl good st _ (by simp)
    | cons f files ih =>
      intro st
      rw [findLoop]
      split
      · exact ih st
      · exact safeRun_refl good st _ (by simp)
  | false =>
    induction files with
    | nil =>
      intro st
      exact safeRun_refl good st _ (by simp)
    | cons f files ih =>
      intro st
      rw [findLoop]
      split
      · exact ih st
      · simp only [Bool.false_eq_true, if_false]
        have hr := hrec rfl f.Id st
        rcases hrc : recurse f.Id st with ⟨out1, st1⟩
        rw [hrc] at hr
        rcases out1 with (err | g) | why
        · simp only
          split
          · rcases hcnt : st1.count "find" "success" with st2 | why2
            · simp only
              refine safeRun_trans good st st2 (Outcome.returned ()) _ ?_ (ih st2)
              exact ⟨by rw [FindState.count_returned st1 st2 _ _ hcnt]; exact hr.1, by simp⟩
            · simp only
              exact safeRun_outcome good st st1 _ _ hr
                (by
                  intro h
                  cases h
                  exact FindState.count_panicked st1 _ _ _ hcnt rfl)
          · rcases hcnt : st1.count "find" "error" with st2 | why2
            · simp only
              exact ⟨by rw [FindState.count_returned st1 st2 _ _ hcnt]; exact hr.1, by simp⟩
            · simp only
              exact safeRun_outcome good st st1 _ _ hr
                (by
                  intro h
                  cases h
                  exact FindState.count_panicked st1 _ _ _ hcnt rfl)
        · simp only
          rcases hcnt : st1.count "find" "success" with st2 | why2
          · simp only
            exact ⟨by rw [FindState.count_returned st1 st2 _ _ hcnt]; exact hr.1, by simp⟩
          · simp only
            exact safeRun_outcome good st st1 _ _ hr
              (by
                intro h
                cases h
                exact FindState.count_panicked st1 _ _ _ hcnt rfl)
        · simp only
          exact hr

theorem safeRun_mono {σ α : Type} (good good2 : Nat × List String → Prop)
    (hgood : ∀ c, good c → good2 c) (st : FindState σ) (r : Outcome α × FindState σ)
    (h : safeRun good st r) : safeRun good2 st r := by
  obtain ⟨⟨new, hc, hg⟩, hout⟩ := h
  exact ⟨⟨new, hc, fun c hcn => hgood c (hg c hcn)⟩, hout⟩

theorem goodCall_tail (depth : Nat) (name : String) (rest : List String)
    (c : Nat × List String) (h : goodCall (depth + 1) rest c) :
    goodCall depth (name :: rest) c := by
  obtain ⟨hne, k, hk, hd⟩ := h
  exact ⟨hne, k + 1, by omega, by rw [hd]; rfl⟩

/-- Started on a non-empty `parts`, `find` never indexes an empty slice: every call it
makes, at any depth, receives the non-empty rest of `parts` for that depth. -/
theorem find_safe {σ : Type} (svc : DriveService σ) :
    ∀ (parts : List String), parts ≠ [] → ∀ (depth : Nat) (parent : String)
      (st : FindState σ), safeRun (goodCall depth parts) st (find svc parts depth parent st) := by
  intro parts
  induction parts with
  | nil => intro h; exact absurd rfl h
  | cons name rest ih =>
    intro _ depth parent st
    have hfirst : safeRun (goodCall depth (name :: rest)) st
        (Outcome.returned (), ({ st with calls := st.calls ++ [(depth, name :: rest)] } :
          FindState σ)) := by
      refine ⟨⟨[(depth, name :: rest)], rfl, ?_⟩, by simp⟩
      intro c hc
      rw [List.mem_singleton.mp hc]
      exact ⟨by simp, 0, rfl, rfl⟩
    have hrec : ((name :: rest).length == 1) = false → ∀ id s,
        safeRun (goodCall depth (name :: rest)) s (find svc rest (depth + 1) id s) := by
      intro hlen id s
      have hrest : rest ≠ [] := by
        intro h
        rw [h] at hlen
        simp at hlen
      exact safeRun_mono _ _ (goodCall_tail depth name rest) s _ (ih hrest (depth + 1) id s)
    rw [find]
    simp only
    rcases hl : svc.list st.remote (findQuery parent name) with ⟨(err | files), remote⟩
    · simp only
      split
      · rename_i why hcnt
        refine safeRun_trans _ st _ _ _ hfirst ?_
        exact safeRun_of_calls_eq _ _ _ _ rfl
          (by
            intro h
            cases h
            exact FindState.count_panicked _ _ _ _ hcnt rfl)
      · rename_i st2 hcnt
        refine safeRun_trans _ st _ _ _ hfirst ?_
        exact safeRun_of_calls_eq _ _ _ _
          ((FindState.count_returned _ st2 _ _ hcnt).trans rfl) (by simp)
    · simp only
      split
      · rename_i why hcnt
        refine safeRun_trans _ st _ _ _ hfirst ?_
        exact safeRun_of_calls_eq _ _ _ _ rfl
          (by
            intro h
            cases h
            exact FindState.count_panicked _ _ _ _ hcnt rfl)
      · rename_i st2 hcnt
        refine safeRun_trans _ st _ _ _ hfirst ?_
        refine safeRun_trans _ _ st2 (Outcome.returned ()) _ ?_
          (findLoop_safe _ _ parent _ hrec files st2)
        exact safeRun_of_calls_eq _ _ _ _
          ((FindState.count_returned _ st2 _ _ hcnt).trans rfl) (by simp)

theorem goodCall_lt (depth : Nat) (parts : List String) (c : Nat × List String)
    (h : goodCall depth parts c) :
    c.2 ≠ [] ∧ ∃ k, c.1 = depth + k ∧ c.2 = parts.drop k ∧ k < parts.length
      ∧ (0 < k → 1 < (parts.drop (k - 1)).length ∧ c.2 = (parts.drop (k - 1)).tail) := by
  obtain ⟨hne, k, hk, hd⟩ := h
  have hlt : k < parts.length := by
    by_contra hlt
    exact hne (by rw [hd]; exact List.drop_eq_nil_of_le (Nat.le_of_not_lt hlt))
  refine ⟨hne, k, hk, hd, hlt, ?_⟩
  intro hpos
  constructor
  · rw [List.length_drop]
    omega
  · rw [List.tail_drop, hd]
    congr 1
    omega

/-- In `New`, `find` runs while `ds.gdcot` is still nil, so the first counter statement
after the list call panics: `New` never returns. -/
theorem New_panics_on_nil_counter {σ : Type} (folder : String) (svc : DriveService σ)
    (remote : σ) :
    (New folder svc remote).1 = Outcome.panicked "nil pointer dereference" := by
  unfold New
  cases hparts : stringsSplit folder with
  | nil => exact absurd hparts (stringsSplit_ne_nil folder)
  | cons name rest =>
    simp only [List.length_cons, Nat.lt_one_iff, Nat.add_one_ne_zero, if_false]
    rw [find]
    simp only
    rcases hl : svc.list remote (findQuery "" name) with ⟨(err | files), remote2⟩ <;>
      simp [FindState.count]

/-- C10. The parts `New` computes from any folder string are non-empty, so its guard
`len(parts) < 1` is never taken. Started by `New`, by `Stat`, or on any non-empty parts,
`find` never panics on `parts[0]`, and each call of `find`, at recursion depth `k` below
the outermost call, receives the non-empty rest of the parts after dropping `k` elements,
with `k` less than the number of parts; for `k > 0` this is the tail `parts[1:]` of the
parts of the calling level, which has more than one element. -/
theorem find_never_indexes_empty_parts {σ : Type} (svc : DriveService σ) (remote : σ)
    (folder : String) (ds : driveStorage σ) (element : Codec) :
    stringsSplit folder ≠ []
    ∧ stringsSplit "" = [""]
    ∧ ¬ ((stringsSplit folder).length < 1)
    ∧ (New folder svc remote).1 ≠ Outcome.returned (Except.error noFolder)
    ∧ (New folder svc remote).1 ≠ Outcome.panicked indexOutOfRange
    ∧ (∀ c ∈ (New folder svc remote).2.calls,
        c.2 ≠ [] ∧ c.2 = (stringsSplit folder).drop c.1 ∧ c.1 < (stringsSplit folder).length)
    ∧ (ds.Stat remote element).1 ≠ Outcome.panicked indexOutOfRange
    ∧ (∀ c ∈ (ds.Stat remote element).2.calls, c = (0, [element.Name]))
    ∧ (∀ (parts : List String) (depth : Nat) (parent : String) (st : FindState σ),
        parts ≠ [] →
        (find svc parts depth parent st).1 ≠ Outcome.panicked indexOutOfRange
        ∧ ∃ new, (find svc parts depth parent st).2.calls = st.calls ++ new
            ∧ ∀ c ∈ new, c.2 ≠ []
                ∧ ∃ k, c.1 = depth + k ∧ c.2 = parts.drop k ∧ k < parts.length
                  ∧ (0 < k → 1 < (parts.drop (k - 1)).length
                      ∧ c.2 = (parts.drop (k - 1)).tail)) := by
  have hne := stringsSplit_ne_nil folder
  have hlen : ¬ ((stringsSplit folder).length < 1) := by
    intro h
    exact hne (List.length_eq_zero.mp (by omega))
  have hgen : ∀ (svc : DriveService σ) (parts : List String) (depth : Nat) (parent : String)
      (st : FindState σ), parts ≠ [] →
      (find svc parts depth parent st).1 ≠ Outcome.panicked indexOutOfRange
      ∧ ∃ new, (find svc parts depth parent st).2.calls = st.calls ++ new
          ∧ ∀ c ∈ new, c.2 ≠ []
              ∧ ∃ k, c.1 = depth + k ∧ c.2 = parts.drop k ∧ k < parts.length
                ∧ (0 < k → 1 < (parts.drop (k - 1)).length
                    ∧ c.2 = (parts.drop (k - 1)).tail) := by
    intro svc parts depth parent st hparts
    obtain ⟨⟨new, hc, hg⟩, hout⟩ := find_safe svc parts hparts depth parent st
    exact ⟨hout, new, hc, fun c hcn => goodCall_lt depth parts c (hg c hcn)⟩
  refine ⟨hne, by decide, hlen, ?_, ?_, ?_, ?_, ?_, hgen svc⟩
  · rw [New_panics_on_nil_counter]
    simp
  · rw [New_panics_on_nil_counter]
    intro h
    exact absurd (Outcome.panicked.inj h) (by decide)
  · obtain ⟨_, new, hc, hg⟩ := hgen svc (stringsSplit folder) 0 ""
      { remote := remote, gdcot := none, calls := [] } hne
    have hcalls : (New folder svc remote).2.calls = new := by
      unfold New
      simp only [hlen, if_false]
      rcases hf : find svc (stringsSplit folder) 0 ""
        { remote := remote, gdcot := none, calls := [] } with ⟨(_ | _) | _, st⟩ <;>
        simp only [hf] at hc <;> simpa using hc
    rw [hcalls]
    intro c hcn
    obtain ⟨hcne, k, hk, hd, hlt, _⟩ := hg c hcn
    have hk0 : c.1 = k := by omega
    rw [hk0]
    exact ⟨hcne, hd, hlt⟩
  · obtain ⟨hout, _⟩ := hgen ds.s [element.Name] 0 ds.p
      { remote := remote, gdcot := ds.gdcot, calls := [] } (by simp)
    unfold driveStorage.Stat
    rcases hf : find ds.s [element.Name] 0 ds.p
      { remote := remote, gdcot := ds.gdcot, calls := [] } with ⟨(_ | _) | why, st⟩
    · simp
    · simp
    · rw [hf] at hout
      simpa using hout
  · obtain ⟨_, new, hc, hg⟩ := hgen ds.s [element.Name] 0 ds.p
      { remote := remote, gdcot := ds.gdcot, calls := [] } (by simp)
    have hcalls : (ds.Stat remote element).2.calls = new := by
      unfold driveStorage.Stat
      rcases hf : find ds.s [element.Name] 0 ds.p
        { remote := remote, gdcot := ds.gdcot, calls := [] } with ⟨(_ | _) | _, st⟩ <;>
        simp only [hf] at hc <;> simpa using hc
    rw [hcalls]
    intro c hcn
    obtain ⟨_, k, hk, hd, hlt, _⟩ := hg c hcn
    have hk0 : k = 0 := by simpa using hlt
    subst hk0
    exact Prod.ext (by simpa using hk) (by simpa using hd)

/-- Witness of C10: `find` on the parts `a`, `b` against `sampleDrive`, with the
counters in place, returns the folder `b` after one call at depth 0 on both parts and one
call at depth 1 on the rest. -/
theorem find_never_indexes_empty_parts_witness :
    ["a", "b"] ≠ []
    ∧ stringsSplit "a/b" = ["a", "b"]
    ∧ (find sampleDrive ["a", "b"] 0 ""
          { remote := (), gdcot := some (NewCounterVec ["operation", "result"]),
            calls := [] }).1
        = Outcome.returned (Except.ok { Id := "id-b", Parents := ["id-a"] })
    ∧ (find sampleDrive ["a", "b"] 0 ""
          { remote := (), gdcot := some (NewCounterVec ["operation", "result"]),
            calls := [] }).2.calls
        = [(0, ["a", "b"]), (1, ["b"])]
    ∧ (find sampleDrive ["a", "b"] 0 ""
          { remote := (), gdcot := some (NewCounterVec ["operation", "result"]),
            calls := [] }).1
        ≠ Outcome.panicked indexOutOfRange :=
  ⟨by simp, by decide, rfl, rfl,
    ((find_never_indexes_empty_parts sampleDrive () "a/b"
        { s := sampleDrive, p := "id-a", gdcot := none } sampleCodec).2.2.2.2.2.2.2.2
      ["a", "b"] 0 "" _ (by simp)).1⟩

end Ingest
